import Mathlib

/-!
# SignalTrace — verification of the log-triage pipeline

Shallow embedding of the SignalTrace repository's core pipeline
(`src/backend/app/services/...` and `src/app/services/fallback.py`) in Lean 4,
together with theorems settling the frozen claims C1–C10.

Strings are modelled as Lean `String`/`List Char`; Python `int` as `Int`/`Nat`
(all values in scope are non-negative counts where `Nat` is used); Python
`float` as `ℚ` where the code only compares and slices, and as `ℝ` where the
code calls `math.log1p` (`score_incident`).  Python regular-expression
substitutions are embedded as executable character-list scanners implementing
the exact leftmost, non-overlapping matching semantics of the five patterns
used by the code (ASCII word/space classes; the source only ever feeds the
patterns ASCII-relevant text and every concrete input used below is ASCII).
-/

namespace SignalTrace

/-! ## Character classes (Python `re` ASCII semantics: `\d`, `\s`, `\w`) -/

def isPyDigit (c : Char) : Bool := c.isDigit

def isHexCh (c : Char) : Bool :=
  c.isDigit || ('a' ≤ c && c ≤ 'f') || ('A' ≤ c && c ≤ 'F')

def isWordCh (c : Char) : Bool := c.isAlphanum || c == '_'

def isSpaceCh (c : Char) : Bool :=
  c == ' ' || c == '\t' || c == '\n' || c == '\r' || c == '\x0b' || c == '\x0c'

/-- `\b` holds before the (word) first character of a match iff the preceding
character is absent or a non-word character. -/
def noWordBefore : Option Char → Bool
  | none => true
  | some c => !isWordCh c

/-- `\b` holds after the (word) last character of a match iff the following
character is absent or a non-word character. -/
def noWordAt : List Char → Bool
  | [] => true
  | c :: _ => !isWordCh c

/-- Length of the maximal digit run at the head of the list. -/
def digitRun : List Char → Nat
  | [] => 0
  | c :: cs => if isPyDigit c then digitRun cs + 1 else 0

/-- Length of the maximal hex-digit run at the head of the list. -/
def hexRun : List Char → Nat
  | [] => 0
  | c :: cs => if isHexCh c then hexRun cs + 1 else 0

/-- Length of the maximal whitespace run at the head of the list. -/
def spaceRun : List Char → Nat
  | [] => 0
  | c :: cs => if isSpaceCh c then spaceRun cs + 1 else 0

/-! ## Matchers for the five normalizer patterns (grouping.py)

Each matcher decides whether the corresponding regex matches at the current
position (given the previous character for the leading `\b`), returning the
number of characters consumed.  Backtracking of the Python engine collapses
to the closed-form conditions encoded here (greedy quantifiers followed by a
mandatory distinct character admit no alternative splits). -/

/-- `NUMBER_RE = \b\d+\b` -/
def matchNumber (prev : Option Char) (s : List Char) : Option Nat :=
  if noWordBefore prev then
    let n := digitRun s
    if 1 ≤ n ∧ noWordAt (s.drop n) then some n else none
  else none

/-- `HEX_RE = \b0x[0-9a-fA-F]+\b` -/
def matchHex (prev : Option Char) (s : List Char) : Option Nat :=
  if noWordBefore prev then
    match s with
    | '0' :: 'x' :: rest =>
      let m := hexRun rest
      if 1 ≤ m ∧ noWordAt (rest.drop m) then some (2 + m) else none
    | _ => none
  else none

/-- `DURATION_RE = \b\d+\s*ms\b` (IGNORECASE) -/
def matchDuration (prev : Option Char) (s : List Char) : Option Nat :=
  if noWordBefore prev then
    let d := digitRun s
    if d = 0 then none
    else
      let rest1 := s.drop d
      let w := spaceRun rest1
      match rest1.drop w with
      | m :: t :: rest2 =>
        if (m == 'm' || m == 'M') && (t == 's' || t == 'S') && noWordAt rest2 then
          some (d + w + 2)
        else none
      | _ => none
  else none

/-- `IP_RE = \b(?:\d{1,3}\.){3}\d{1,3}\b` -/
def matchIp (prev : Option Char) (s : List Char) : Option Nat :=
  if noWordBefore prev then
    let d1 := digitRun s
    if 1 ≤ d1 ∧ d1 ≤ 3 then
      match s.drop d1 with
      | '.' :: r1 =>
        let d2 := digitRun r1
        if 1 ≤ d2 ∧ d2 ≤ 3 then
          match r1.drop d2 with
          | '.' :: r2 =>
            let d3 := digitRun r2
            if 1 ≤ d3 ∧ d3 ≤ 3 then
              match r2.drop d3 with
              | '.' :: r3 =>
                let d4 := digitRun r3
                if 1 ≤ d4 ∧ d4 ≤ 3 ∧ noWordAt (r3.drop d4) then
                  some (d1 + 1 + d2 + 1 + d3 + 1 + d4)
                else none
              | _ => none
            else none
          | _ => none
        else none
      | _ => none
    else none
  else none

/-- Consume exactly `n` hex digits, returning the rest. -/
def hexExact : Nat → List Char → Option (List Char)
  | 0, s => some s
  | _ + 1, [] => none
  | n + 1, c :: cs => if isHexCh c then hexExact n cs else none

/-- `UUID_RE`: 8-4-4-4-12 hex with version `[1-5]` and variant `[89abAB]`. -/
def matchUuid (prev : Option Char) (s : List Char) : Option Nat :=
  if noWordBefore prev then
    match hexExact 8 s with
    | some ('-' :: r1) =>
      match hexExact 4 r1 with
      | some ('-' :: r2) =>
        match r2 with
        | v :: r3 =>
          if '1' ≤ v ∧ v ≤ '5' then
            match hexExact 3 r3 with
            | some ('-' :: r4) =>
              match r4 with
              | b :: r5 =>
                if b == '8' || b == '9' || b == 'a' || b == 'b' || b == 'A' || b == 'B' then
                  match hexExact 3 r5 with
                  | some ('-' :: r6) =>
                    match hexExact 12 r6 with
                    | some r7 => if noWordAt r7 then some 36 else none
                    | none => none
                  | _ => none
                else none
              | [] => none
            | _ => none
          else none
        | [] => none
      | _ => none
    | _ => none
  else none

/-! ## Generic `re.sub` driver: leftmost, non-overlapping substitution -/

/-- Scan the character list, replacing every leftmost non-overlapping match of
`tryM` with `repl`, exactly as `re.sub` does.  `prev` is the character just
before the current position in the original string (for `\b`); `skip` counts
characters of the current match still to be consumed (the scan resumes at the
end of each match). -/
def pySubGo (tryM : Option Char → List Char → Option Nat) (repl : List Char) :
    Nat → Option Char → List Char → List Char
  | _, _, [] => []
  | skip + 1, _, c :: cs => pySubGo tryM repl skip (some c) cs
  | 0, prev, c :: cs =>
    match tryM prev (c :: cs) with
    | some n => repl ++ pySubGo tryM repl (max n 1 - 1) (some c) cs
    | none => c :: pySubGo tryM repl 0 (some c) cs

def pySub (tryM : Option Char → List Char → Option Nat) (repl : List Char)
    (s : List Char) : List Char :=
  pySubGo tryM repl 0 none s

/-- Collapse every maximal whitespace run to a single space (`\s+` → `" "`);
the Boolean records whether the previous character was whitespace (i.e. the
current position is inside an already-replaced run). -/
def collapseWsAux : Bool → List Char → List Char
  | _, [] => []
  | prevSpace, c :: cs =>
    if isSpaceCh c then
      if prevSpace then collapseWsAux true cs else ' ' :: collapseWsAux true cs
    else c :: collapseWsAux false cs

def collapseWs (s : List Char) : List Char := collapseWsAux false s

/-- Python `str.strip()` (whitespace model as above). -/
def pyStrip (s : List Char) : List Char :=
  ((s.dropWhile isSpaceCh).reverse.dropWhile isSpaceCh).reverse

/-! ## `normalize_message` (grouping.py) -/

def MAX_MSG_LEN : Nat := 400

/-- `grouping.normalize_message`: strip; blank → `"empty_message"`; newlines to
spaces; truncate beyond 400 chars with `…`; substitute UUID, IP, hex,
duration and number tokens; collapse whitespace; strip; lower-case. -/
def normalize_message (msg : String) : String :=
  let s0 := pyStrip msg.data
  if s0 = [] then "empty_message"
  else
    let s1 := s0.map (fun c => if c == '\n' then ' ' else c)
    let s2 := if s1.length > MAX_MSG_LEN then s1.take MAX_MSG_LEN ++ ['…'] else s1
    let s3 := pySub matchUuid "<uuid>".data s2
    let s4 := pySub matchIp "<ip>".data s3
    let s5 := pySub matchHex "<hex>".data s4
    let s6 := pySub matchDuration "<timeout>".data s5
    let s7 := pySub matchNumber "<num>".data s6
    let s8 := pyStrip (collapseWs s7)
    ⟨s8.map Char.toLower⟩

/-! Sanity checks of the embedded normalizer (agree with the Python code). -/

example : normalize_message "Error 42 at 10.0.0.5" = "error <num> at <ip>" := by decide

example : normalize_message "  TokenExpired  after 30 ms  " = "tokenexpired after <timeout>" := by
  decide

example :
    normalize_message "req 550e8400-e29b-41d4-a716-446655440000 failed 0xDEADBEEF" =
      "req <uuid> failed <hex>" := by decide

example : normalize_message "" = "empty_message" := by decide

example :
    normalize_message "abc123 1234.1.1.1 1.2.3.4.5" =
      "abc123 <num>.<num>.<num>.<num> <ip>.<num>" := by decide

/-! ## Claim C4: idempotence of `normalize_message` -/

set_option maxRecDepth 10000

/-- The message `"1 " * 201` (402 characters): it strips to 401 characters, is
truncated to 400 + `…`, and then every standalone `1` becomes `<num>`, growing
the first normalization's output to 1201 characters — beyond the 400-character
bound, so the second normalization truncates again. -/
def c4FailingMessage : String := ⟨(List.replicate 201 ['1', ' ']).flatten⟩

/-- C4: the spec requires `normalize_message` to be idempotent for every
string, including messages at or beyond the 400-character truncation bound and
messages whose placeholder substitutions change the string's length.  The code
violates this: on `c4FailingMessage` the placeholder substitutions grow the
truncated message past 400 characters, and re-normalizing truncates it again,
yielding a different signature. -/
theorem c4_normalize_message_not_idempotent :
    normalize_message (normalize_message c4FailingMessage) ≠
      normalize_message c4FailingMessage := by
  decide

/-- The divergence in detail: the first normalization yields 1201 characters,
the second cuts that back to 401. -/
example :
    (normalize_message c4FailingMessage).length = 1201 ∧
      (normalize_message (normalize_message c4FailingMessage)).length = 401 := by
  constructor <;> decide

/-! ## Ranking / scoring engine (ranking/scoring.py) -/

/-- `Priority` labels; P0 is the highest urgency. -/
inductive Priority
  | P0
  | P1
  | P2
  | P3
deriving DecidableEq, Repr

/-- `priority_from_score`: map score to priority label.  The Python score is a
float compared against the literals `0.75`, `0.55`, `0.35`; it is embedded
over exact rationals (every boundary value named by the claims is exactly
representable and the comparison structure is unchanged). -/
def priority_from_score (score : ℚ) : Priority :=
  if score ≥ 3 / 4 then .P0
  else if score ≥ 11 / 20 then .P1
  else if score ≥ 7 / 20 then .P2
  else .P3

/-- `RankingSignals`: transparent inputs to the scoring model. -/
structure RankingSignals where
  frequency : ℤ
  recency_minutes : ℝ
  time_span_seconds : Option ℝ
  service_count : ℤ

/-- The three configurable weight entries of the scoring dictionary. -/
structure ScoreWeights where
  severity : ℝ
  frequency : ℝ
  recency : ℝ

/-- `DEFAULT_WEIGHTS = {"severity": 0.50, "frequency": 0.30, "recency": 0.20}` -/
def DEFAULT_WEIGHTS : ScoreWeights := ⟨0.50, 0.30, 0.20⟩

/-- Python `str.upper()` (character-wise; ASCII semantics as elsewhere). -/
def pyUpper (s : String) : String := ⟨s.data.map Char.toUpper⟩

/-- `SEVERITY_SCORE.get(level, 0.2)` of scoring.py. -/
def SEVERITY_SCORE (level : String) : ℝ :=
  if level = "FATAL" then 1.0
  else if level = "CRITICAL" then 1.0
  else if level = "ERROR" then 0.9
  else if level = "WARN" then 0.5
  else if level = "WARNING" then 0.5
  else if level = "INFO" then 0.2
  else if level = "DEBUG" then 0.1
  else if level = "TRACE" then 0.1
  else if level = "UNKNOWN" then 0.2
  else 0.2

/-- `score_incident`: weighted sum of severity, dampened frequency
(`math.log1p(max(0, f)) / 5.0`) and recency decay (`1 / (1 + minutes/60)`),
multiplied by the multi-service boost `1 + 0.1 * (service_count - 1)` when
`service_count > 1`. -/
noncomputable def score_incident (severity : String) (signals : RankingSignals)
    (w : ScoreWeights) : ℝ :=
  let severity_score := SEVERITY_SCORE (pyUpper severity)
  let frequency_score := Real.log (1 + ((max 0 signals.frequency : ℤ) : ℝ)) / 5
  let recency_score := 1 / (1 + signals.recency_minutes / 60)
  let service_boost :=
    if signals.service_count > 1 then 1 + 0.1 * ((signals.service_count : ℝ) - 1) else 1
  let base_score :=
    w.severity * severity_score + w.frequency * frequency_score + w.recency * recency_score
  base_score * service_boost

/-! ## Claim C5: priority thresholds -/

/-- C5: `priority_from_score` maps `s ≥ 0.75` to P0, `0.55 ≤ s < 0.75` to P1,
`0.35 ≤ s < 0.55` to P2 and `s < 0.35` to P3, all lower bounds inclusive. -/
theorem c5_priority_from_score_thresholds (s : ℚ) :
    (3 / 4 ≤ s → priority_from_score s = .P0) ∧
    (11 / 20 ≤ s ∧ s < 3 / 4 → priority_from_score s = .P1) ∧
    (7 / 20 ≤ s ∧ s < 11 / 20 → priority_from_score s = .P2) ∧
    (s < 7 / 20 → priority_from_score s = .P3) := by
  unfold priority_from_score
  refine ⟨fun h => ?_, fun h => ?_, fun h => ?_, fun h => ?_⟩
  · rw [if_pos (by linarith)]
  · rw [if_neg (by simp only [ge_iff_le, not_le]; linarith), if_pos (by linarith)]
  · rw [if_neg (by simp only [ge_iff_le, not_le]; linarith),
      if_neg (by simp only [ge_iff_le, not_le]; linarith), if_pos (by linarith)]
  · rw [if_neg (by simp only [ge_iff_le, not_le]; linarith),
      if_neg (by simp only [ge_iff_le, not_le]; linarith),
      if_neg (by simp only [ge_iff_le, not_le]; linarith)]

/-- C5 witness: exactly 0.75 yields P0; 0.749999 and 0.55 yield P1; 0.35
yields P2. -/
theorem c5_priority_from_score_thresholds_witness :
    priority_from_score (3 / 4) = .P0 ∧
    priority_from_score (749999 / 1000000) = .P1 ∧
    priority_from_score (11 / 20) = .P1 ∧
    priority_from_score (7 / 20) = .P2 :=
  ⟨(c5_priority_from_score_thresholds (3 / 4)).1 (by norm_num),
   (c5_priority_from_score_thresholds (749999 / 1000000)).2.1 ⟨by norm_num, by norm_num⟩,
   (c5_priority_from_score_thresholds (11 / 20)).2.1 ⟨by norm_num, by norm_num⟩,
   (c5_priority_from_score_thresholds (7 / 20)).2.2.1 ⟨by norm_num, by norm_num⟩⟩

/-! ## Claim C6: range of `score_incident` -/

theorem severity_score_bounds (level : String) :
    (1 : ℝ) / 10 ≤ SEVERITY_SCORE level ∧ SEVERITY_SCORE level ≤ 1 := by
  unfold SEVERITY_SCORE
  split_ifs <;> norm_num

theorem exp_five_ge : (148 : ℝ) ≤ Real.exp 5 := by
  have h1 : (2.7182818283 : ℝ) ^ 5 ≤ Real.exp 1 ^ 5 := by
    apply pow_le_pow_left₀ (by norm_num) (le_of_lt Real.exp_one_gt_d9)
  have h2 : Real.exp 1 ^ 5 = Real.exp 5 := by
    rw [← Real.exp_nat_mul]
    norm_num
  nlinarith [h1, h2]

/-- C6 (amended): with the default weights, the score is non-negative for any
severity whenever `frequency ≥ 0`, `recency_minutes ≥ 0` and
`service_count ≥ 1`; and it is at most 1.1 when additionally a single service
is affected and the frequency is at most 147.  (The original interval
`[0, ~1.1]` fails for large service counts or frequencies, see the
counterexample.) -/
theorem c6_score_incident_bounds (severity : String) (signals : RankingSignals)
    (hf : 0 ≤ signals.frequency) (hr : 0 ≤ signals.recency_minutes)
    (hs : 1 ≤ signals.service_count) :
    0 ≤ score_incident severity signals DEFAULT_WEIGHTS ∧
      (signals.service_count = 1 → signals.frequency ≤ 147 →
        score_incident severity signals DEFAULT_WEIGHTS ≤ 11 / 10) := by
  obtain ⟨hsev0, hsev1⟩ := severity_score_bounds (pyUpper severity)
  have hmax : ((max 0 signals.frequency : ℤ) : ℝ) ≥ 0 := by positivity
  have hlog0 : 0 ≤ Real.log (1 + ((max 0 signals.frequency : ℤ) : ℝ)) :=
    Real.log_nonneg (by linarith)
  have hden : (1 : ℝ) ≤ 1 + signals.recency_minutes / 60 := by linarith
  have hrec0 : 0 ≤ 1 / (1 + signals.recency_minutes / 60) := by positivity
  have hrec1 : 1 / (1 + signals.recency_minutes / 60) ≤ 1 := by
    rw [div_le_one (by linarith)]; linarith
  have hboost : (if signals.service_count > 1 then
      1 + 0.1 * ((signals.service_count : ℝ) - 1) else 1) ≥ 1 := by
    split_ifs with h
    · have : (1 : ℝ) ≤ (signals.service_count : ℝ) := by exact_mod_cast hs
      nlinarith
    · exact le_refl 1
  constructor
  · unfold score_incident DEFAULT_WEIGHTS
    have hb : (0 : ℝ) ≤ (if signals.service_count > 1 then
        1 + 0.1 * ((signals.service_count : ℝ) - 1) else 1) := by linarith
    simp only
    nlinarith [hsev0, hlog0, hrec0, hb]
  · intro h1 hf147
    unfold score_incident DEFAULT_WEIGHTS
    simp only [h1]
    have hb1 : ¬ ((1 : ℤ) > 1) := by omega
    rw [if_neg hb1, mul_one]
    have hlogle : Real.log (1 + ((max 0 signals.frequency : ℤ) : ℝ)) ≤ 5 := by
      rw [Real.log_le_iff_le_exp (by linarith)]
      have : ((max 0 signals.frequency : ℤ) : ℝ) ≤ 147 := by
        have : (max 0 signals.frequency : ℤ) ≤ 147 := by omega
        exact_mod_cast this
      linarith [exp_five_ge]
    nlinarith [hsev1, hrec1, hlog0, hrec0, hsev0, hlogle]

/-- C6 witness for the amended bounds, at severity ERROR, frequency 147,
recency 0, a single service. -/
theorem c6_score_incident_bounds_witness :
    0 ≤ score_incident "ERROR" ⟨147, 0, none, 1⟩ DEFAULT_WEIGHTS ∧
      score_incident "ERROR" ⟨147, 0, none, 1⟩ DEFAULT_WEIGHTS ≤ 11 / 10 :=
  ⟨(c6_score_incident_bounds "ERROR" ⟨147, 0, none, 1⟩ (by norm_num) (by norm_num)
      (by norm_num)).1,
   (c6_score_incident_bounds "ERROR" ⟨147, 0, none, 1⟩ (by norm_num) (by norm_num)
      (by norm_num)).2 rfl (by norm_num)⟩

/-- C6 counterexample: the inputs satisfy every hypothesis of the claim
(`frequency ≥ 0`, `recency ≥ 0`, `service_count ≥ 1`), yet with 100 services
the multi-service boost drives the default-weight score to 7.63, far outside
`[0, ~1.1]`. -/
theorem c6_score_incident_exceeds_bound :
    (11 : ℝ) / 10 < score_incident "FATAL" ⟨0, 0, none, 100⟩ DEFAULT_WEIGHTS := by
  have hup : pyUpper "FATAL" = "FATAL" := by decide
  unfold score_incident DEFAULT_WEIGHTS
  simp only [hup]
  norm_num [SEVERITY_SCORE, Real.log_one]

/-! ## Evidence sample selection (pipeline_interfaces._select_sample_indices)

`step = total / (remaining + 1)` is a Python float and `int(i * step)`
truncates towards zero; for the non-negative values in range this is
`⌊i * total / (remaining + 1)⌋`, embedded as exact natural division (the
float rounding of the two operations cannot bridge the gap of at least
`total / (remaining + 1) ≥ 1` to the next multiple for any feasible input,
and no claim depends on the exact middle positions). -/

/-- One iteration of the `for i in range(1, remaining + 1)` loop:
append `int(i * step)` if not already present.  `rem1 = remaining + 1`. -/
def sampleStep (total rem1 : Nat) (acc : List Nat) (i : Nat) : List Nat :=
  if (i + 1) * total / rem1 ∈ acc then acc else acc ++ [(i + 1) * total / rem1]

/-- The `indices` list right before `sorted(set(indices))[:max_samples]`. -/
def buildSampleIndices (total maxSamples : Nat) : List Nat :=
  (List.range (maxSamples - 2)).foldl (sampleStep total (maxSamples - 2 + 1)) [0, total - 1]

/-- Python `sorted(set(l))` for naturals: ascending enumeration of the
distinct elements. -/
def pySortedNatSet (l : List Nat) : List Nat := l.dedup.insertionSort (· ≤ ·)

/-- `_select_sample_indices`: all indices when the group is small enough,
otherwise first + last + evenly distributed picks, deduplicated, sorted,
capped at `max_samples`. -/
def _select_sample_indices (total maxSamples : Nat) : List Nat :=
  if total ≤ maxSamples then List.range total
  else (pySortedNatSet (buildSampleIndices total maxSamples)).take maxSamples

example : _select_sample_indices 20 8 = [0, 2, 5, 8, 11, 14, 17, 19] := by decide

example : _select_sample_indices 5 8 = [0, 1, 2, 3, 4] := by decide

example : _select_sample_indices 9 8 = [0, 1, 2, 3, 5, 6, 7, 8] := by decide

theorem mem_foldl_sampleStep (t r : Nat) (l : List Nat) (acc : List Nat) (x : Nat)
    (hx : x ∈ acc) : x ∈ l.foldl (sampleStep t r) acc := by
  induction l generalizing acc with
  | nil => exact hx
  | cons i l ih =>
    apply ih
    unfold sampleStep
    split
    · exact hx
    · exact List.mem_append_left _ hx

theorem nodup_foldl_sampleStep (t r : Nat) (l : List Nat) (acc : List Nat)
    (h : acc.Nodup) : (l.foldl (sampleStep t r) acc).Nodup := by
  induction l generalizing acc with
  | nil => exact h
  | cons i l ih =>
    apply ih
    unfold sampleStep
    split
    · exact h
    · next hmem => simpa [List.nodup_append] using ⟨h, hmem⟩

theorem length_foldl_sampleStep (t r : Nat) (l : List Nat) (acc : List Nat) :
    (l.foldl (sampleStep t r) acc).length ≤ acc.length + l.length := by
  induction l generalizing acc with
  | nil => simp
  | cons i l ih =>
    have h := ih (sampleStep t r acc i)
    have hstep : (sampleStep t r acc i).length ≤ acc.length + 1 := by
      unfold sampleStep
      split
      · omega
      · simp
    simp only [List.foldl_cons, List.length_cons]
    omega

/-- C7: for `max_samples ≥ 2` and a group larger than `max_samples`, the
selected sample indices contain index `0` and index `total − 1`, are
duplicate-free, number at most `max_samples`, and are sorted strictly
ascending; for a group of at most `max_samples` records every index is
selected. -/
theorem c7_select_sample_indices_spec (total maxSamples : Nat)
    (h2 : 2 ≤ maxSamples) :
    (total ≤ maxSamples → _select_sample_indices total maxSamples = List.range total) ∧
    (maxSamples < total →
      0 ∈ _select_sample_indices total maxSamples ∧
      (total - 1) ∈ _select_sample_indices total maxSamples ∧
      (_select_sample_indices total maxSamples).Nodup ∧
      (_select_sample_indices total maxSamples).length ≤ maxSamples ∧
      (_select_sample_indices total maxSamples).Sorted (· < ·)) := by
  constructor
  · intro h
    unfold _select_sample_indices
    rw [if_pos h]
  · intro h
    have hne : ¬ total ≤ maxSamples := by omega
    have htot3 : 3 ≤ total := by omega
    set L := buildSampleIndices total maxSamples with hL
    have hinit : ([0, total - 1] : List Nat).Nodup := by
      simp only [List.nodup_cons, List.mem_singleton, List.nodup_nil, and_true]
      constructor
      · omega
      · simp
    have hmemL0 : 0 ∈ L := mem_foldl_sampleStep _ _ _ _ _ (by simp)
    have hmemL1 : total - 1 ∈ L := mem_foldl_sampleStep _ _ _ _ _ (by simp)
    have hnodupL : L.Nodup := nodup_foldl_sampleStep _ _ _ _ hinit
    have hlenL : L.length ≤ maxSamples := by
      have := length_foldl_sampleStep total (maxSamples - 2 + 1)
        (List.range (maxSamples - 2)) [0, total - 1]
      simp only [List.length_range] at this
      have h22 : ([0, total - 1] : List Nat).length = 2 := rfl
      rw [hL]
      unfold buildSampleIndices
      omega
    have hdedup : L.dedup = L := List.dedup_eq_self.mpr hnodupL
    have hsorted : (pySortedNatSet L).Sorted (· ≤ ·) := by
      unfold pySortedNatSet
      exact List.sorted_insertionSort _ _
    have hperm : List.Perm (pySortedNatSet L) L := by
      unfold pySortedNatSet
      rw [hdedup]
      exact List.perm_insertionSort _ _
    have hlen : (pySortedNatSet L).length ≤ maxSamples := by
      rw [hperm.length_eq]; exact hlenL
    have htake : (pySortedNatSet L).take maxSamples = pySortedNatSet L :=
      List.take_of_length_le hlen
    have hresult : _select_sample_indices total maxSamples = pySortedNatSet L := by
      unfold _select_sample_indices
      rw [if_neg hne, ← hL, htake]
    have hnodupS : (pySortedNatSet L).Nodup := hperm.nodup_iff.mpr hnodupL
    rw [hresult]
    refine ⟨hperm.mem_iff.mpr hmemL0, hperm.mem_iff.mpr hmemL1, hnodupS, hlen,
      hsorted.lt_of_le hnodupS⟩

/-- C7 witness at a concrete oversized group (`total = 20`, `max_samples = 8`)
and a concrete small group (`total = 5`). -/
theorem c7_select_sample_indices_spec_witness :
    (_select_sample_indices 5 8 = List.range 5) ∧
    (0 ∈ _select_sample_indices 20 8 ∧
      19 ∈ _select_sample_indices 20 8 ∧
      (_select_sample_indices 20 8).Nodup ∧
      (_select_sample_indices 20 8).length ≤ 8 ∧
      (_select_sample_indices 20 8).Sorted (· < ·)) :=
  ⟨(c7_select_sample_indices_spec 5 8 (by norm_num)).1 (by norm_num),
   (c7_select_sample_indices_spec 20 8 (by norm_num)).2 (by norm_num)⟩

/-! ## Data model (parser.LogRecord, schemas.ParsedLogLine, schemas.IncidentGroup)

Timestamps of `LogRecord` are abstract integer instants (the code only
compares them and takes maxima); `ParsedLogLine.timestamp` is the optional
ISO string exactly as in `schemas.py`. -/

structure LogRecord where
  timestamp : ℤ
  service : String
  level : String
  message : String
  raw : String
deriving DecidableEq, Repr

structure ParsedLogLine where
  line_number : ℤ
  timestamp : Option String
  service : Option String
  level : Option String
  message : String
  raw_line : String
deriving DecidableEq, Repr

structure TimeWindow where
  first_seen : Option String := none
  last_seen : Option String := none
deriving DecidableEq, Repr

structure IncidentGroup where
  signature : String
  lines : List ParsedLogLine
  count : ℕ
  severity : String
  time_window : TimeWindow
  services : List String
deriving DecidableEq, Repr

/-! ## Grouping engine (grouping.py) -/

/-- `service = r.service or "unknown"` (Python falsy empty string). -/
def serviceOf (r : LogRecord) : String :=
  if r.service = "" then "unknown" else r.service

/-- `level = (r.level or "UNKNOWN").upper(); if level == "WARNING": level = "WARN"` -/
def bucketLevel (level : String) : String :=
  let u := pyUpper (if level = "" then "UNKNOWN" else level)
  if u = "WARNING" then "WARN" else u

/-- The grouping key `(service, level_bucket, normalized_message)`. -/
def bucketKey (r : LogRecord) : String × String × String :=
  (serviceOf r, bucketLevel r.level, normalize_message r.message)

/-- Insertion-ordered dictionary of buckets
(`buckets.setdefault(key, []).append(r)`). -/
def addToBuckets (bs : List ((String × String × String) × List LogRecord))
    (k : String × String × String) (r : LogRecord) :
    List ((String × String × String) × List LogRecord) :=
  match bs with
  | [] => [(k, [r])]
  | (k', rs) :: rest =>
    if k' = k then (k', rs ++ [r]) :: rest else (k', rs) :: addToBuckets rest k r

def bucketsOf (records : List LogRecord) :
    List ((String × String × String) × List LogRecord) :=
  records.foldl (fun bs r => addToBuckets bs (bucketKey r) r) []

/-- Dictionary lookup with `[]` default (used only in proofs). -/
def lookupB (bs : List ((String × String × String) × List LogRecord))
    (k : String × String × String) : List LogRecord :=
  match bs with
  | [] => []
  | (k', rs) :: rest => if k' = k then rs else lookupB rest k

/-- Length of the maximal `\w` run at the head of the list. -/
def wordRun : List Char → Nat
  | [] => 0
  | c :: cs => if isWordCh c then wordRun cs + 1 else 0

/-- Python `str.split()` with no argument: split on whitespace runs,
discarding empty pieces. -/
def pySplitAux : List Char → List Char → List String
  | [], cur => if cur = [] then [] else [⟨cur.reverse⟩]
  | c :: cs, cur =>
    if isSpaceCh c then
      if cur = [] then pySplitAux cs [] else (⟨cur.reverse⟩ : String) :: pySplitAux cs []
    else pySplitAux cs (c :: cur)

def pySplitWs (s : List Char) : List String := pySplitAux s []

/-- `extract_error_signature`: `re.match(r"^([A-Za-z_]\w*(?:Exception|Error|Fault))\b", ...)`
on the stripped message.  Because of the trailing `\b`, a match must consume
the whole maximal leading word token, so the regex matches iff that token
starts with a letter or underscore and properly ends in one of the three
suffixes; otherwise fall back to the first six whitespace-separated tokens. -/
def extract_error_signature (msg : String) : String :=
  let t := pyStrip msg.data
  let matched : Option String :=
    match t with
    | [] => none
    | c :: _ =>
      if c.isAlpha || c == '_' then
        let w := wordRun t
        let firstWord := t.take w
        if ("Exception".data.isSuffixOf firstWord ∧ 10 ≤ w) ∨
            ("Error".data.isSuffixOf firstWord ∧ 6 ≤ w) ∨
            ("Fault".data.isSuffixOf firstWord ∧ 6 ≤ w) then
          some ⟨firstWord⟩
        else none
      else none
  match matched with
  | some sig => sig
  | none =>
    let tokens := pySplitWs (pyStrip msg.data)
    if tokens = [] then "unknown_error" else String.intercalate " " (tokens.take 6)

/-- Characters kept verbatim by `build_group_id` (`[a-zA-Z0-9:_\-]`). -/
def groupIdOk (c : Char) : Bool := c.isAlphanum || c == ':' || c == '_' || c == '-'

/-- `re.sub(r"[^a-zA-Z0-9:_\-]+", "_", base)`: squash each maximal run of
other characters to a single underscore. -/
def squashBadAux : Bool → List Char → List Char
  | _, [] => []
  | prevBad, c :: cs =>
    if groupIdOk c then c :: squashBadAux false cs
    else if prevBad then squashBadAux true cs
    else '_' :: squashBadAux true cs

def build_group_id (service norm : String) : String :=
  ⟨(squashBadAux false (service.data ++ "::".data ++ norm.data)).take 120⟩

/-- `sorted(items, key=lambda x: x.timestamp)` (stable). -/
def sortByTimestamp (items : List LogRecord) : List LogRecord :=
  items.insertionSort (fun a b => a.timestamp ≤ b.timestamp)

def pyStripS (s : String) : String := ⟨pyStrip s.data⟩

/-- The sample-message loop of `group_logs`: up to 3 distinct non-empty
stripped messages (each truncated to 300 characters), in order. -/
def collectSamples : List LogRecord → List String → List String → List String
  | [], _, samples => samples
  | it :: rest, seen, samples =>
    let m := pyStripS it.message
    if m ≠ "" ∧ m ∉ seen then
      let samples1 := samples ++ [(⟨m.data.take 300⟩ : String)]
      if 3 ≤ samples1.length then samples1
      else collectSamples rest (seen ++ [m]) samples1
    else collectSamples rest seen samples

structure LogGroup where
  group_id : String
  service : String
  level : String
  error_signature : String
  normalized_message : String
  count : ℕ
  timestamps : List ℤ
  sample_messages : List String
deriving DecidableEq, Repr

/-- Build one `LogGroup` from a bucket. -/
def mkLogGroup (k : String × String × String) (items : List LogRecord) : LogGroup :=
  let items_sorted := sortByTimestamp items
  { group_id := build_group_id k.1 k.2.2
    service := k.1
    level := k.2.1
    error_signature :=
      match items_sorted with
      | [] => "unknown_error"
      | it :: _ => extract_error_signature it.message
    normalized_message := k.2.2
    count := items.length
    timestamps := items_sorted.map (·.timestamp)
    sample_messages := collectSamples items_sorted [] [] }

/-- `max(g.timestamps)`; `none` stands for `datetime.min` (empty list). -/
def groupMaxTs (g : LogGroup) : Option ℤ :=
  match g.timestamps with
  | [] => none
  | t :: ts => some (ts.foldl max t)

def tsLeB : Option ℤ → Option ℤ → Bool
  | none, _ => true
  | some _, none => false
  | some x, some y => x ≤ y

/-- Lexicographic `≤` on the sort key `(count, max timestamp)`. -/
def lexLeB : ℕ × Option ℤ → ℕ × Option ℤ → Bool
  | (c1, t1), (c2, t2) => decide (c1 < c2) || (decide (c1 = c2) && tsLeB t1 t2)

def groupKeyOf (g : LogGroup) : ℕ × Option ℤ := (g.count, groupMaxTs g)

/-- `group_logs`: bucket, build groups in insertion order, then
`groups.sort(key=lambda g: (g.count, max(g.timestamps) ...), reverse=True)`
(stable descending). -/
def group_logs (records : List LogRecord) : List LogGroup :=
  ((bucketsOf records).map (fun kv => mkLogGroup kv.1 kv.2)).insertionSort
    (fun a b => lexLeB (groupKeyOf b) (groupKeyOf a) = true)

/-! ## `group_and_rank` (pipeline_interfaces.py) -/

/-- `SEVERITY_WEIGHTS.get(level, 1)` of pipeline_interfaces.py. -/
def SEVERITY_WEIGHTS (level : String) : ℕ :=
  if level = "FATAL" then 100
  else if level = "CRITICAL" then 90
  else if level = "ERROR" then 50
  else if level = "WARN" then 20
  else if level = "WARNING" then 20
  else if level = "INFO" then 5
  else if level = "DEBUG" then 1
  else if level = "TRACE" then 1
  else 1

/-- Reconstruction of a `LogRecord` from a `ParsedLogLine` in `group_and_rank`.
`parseTs` stands for `_parse_timestamp` (strptime over the fixed format list,
opaque here) and `now` for `datetime.utcnow()`; Python truthiness makes the
empty timestamp string behave like `None`. -/
def toLogRecord (parseTs : String → Option ℤ) (now : ℤ) (p : ParsedLogLine) :
    LogRecord :=
  { timestamp :=
      match p.timestamp with
      | none => now
      | some t => if t = "" then now else (parseTs t).getD now
    service := match p.service with
      | none => "unknown"
      | some s => if s = "" then "unknown" else s
    level := match p.level with
      | none => "UNKNOWN"
      | some l => if l = "" then "UNKNOWN" else l
    message := p.message
    raw := p.raw_line }

/-- The record-matching condition of the `group_and_rank` list comprehension. -/
def matchesGroup (lg : LogGroup) (r : LogRecord) : Bool :=
  normalize_message r.message == lg.normalized_message &&
    r.service == lg.service && r.level == lg.level

/-- `for rec in matching: for p in parsed: if p.raw_line == rec.raw: append; break` -/
def groupLinesFor (parsed : List ParsedLogLine) (matching : List LogRecord) :
    List ParsedLogLine :=
  matching.foldl
    (fun acc rec =>
      match parsed.find? (fun p => p.raw_line == rec.raw) with
      | some p => acc ++ [p]
      | none => acc)
    []

/-- The `seen`-set deduplication by `(line_number, raw_line)`, keeping first
occurrences. -/
def dedupLines : List (ℤ × String) → List ParsedLogLine → List ParsedLogLine
  | _, [] => []
  | seen, p :: rest =>
    if (p.line_number, p.raw_line) ∈ seen then dedupLines seen rest
    else p :: dedupLines ((p.line_number, p.raw_line) :: seen) rest

/-- Python truthiness filter for optional strings (`if l.timestamp`). -/
def pyTruthyStr : Option String → Option String
  | none => none
  | some t => if t = "" then none else some t

/-- Build one `IncidentGroup` from a `LogGroup` inside `group_and_rank`. -/
def mkIncident (parsed : List ParsedLogLine) (log_records : List LogRecord)
    (lg : LogGroup) : IncidentGroup :=
  let matching := log_records.filter (fun r => matchesGroup lg r)
  let unique_lines := dedupLines [] (groupLinesFor parsed matching)
  let timestamps := unique_lines.filterMap (fun l => pyTruthyStr l.timestamp)
  let time_window :=
    if timestamps = [] then ({} : TimeWindow)
    else
      let sorted_ts := timestamps.insertionSort (fun a b => a ≤ b)
      { first_seen := sorted_ts.head?, last_seen := sorted_ts.getLast? }
  { signature := lg.normalized_message
    lines := unique_lines
    count := lg.count
    severity := lg.level
    time_window := time_window
    services := (unique_lines.filterMap (fun l => pyTruthyStr l.service)).dedup }

/-- The final ranking key `x.count * SEVERITY_WEIGHTS.get(x.severity, 1)`. -/
def rankProduct (g : IncidentGroup) : ℕ := g.count * SEVERITY_WEIGHTS g.severity

/-- `group_and_rank`: rebuild `LogRecord`s, delegate to `group_logs`,
reassemble `IncidentGroup`s in group order, then re-sort by
`count × severity-weight` descending (stable). -/
def group_and_rank (parseTs : String → Option ℤ) (now : ℤ)
    (parsed : List ParsedLogLine) : List IncidentGroup :=
  let log_records := parsed.map (toLogRecord parseTs now)
  let incidents := (group_logs log_records).map (mkIncident parsed log_records)
  incidents.insertionSort (fun a b => rankProduct b ≤ rankProduct a)

/-! ### Bucket dictionary lemmas -/

theorem lookupB_addToBuckets (bs : List ((String × String × String) × List LogRecord))
    (k : String × String × String) (r : LogRecord) (q : String × String × String) :
    lookupB (addToBuckets bs k r) q =
      if q = k then lookupB bs q ++ [r] else lookupB bs q := by
  induction bs with
  | nil =>
    simp only [addToBuckets, lookupB]
    by_cases h : q = k
    · rw [if_pos h.symm, if_pos h]
      rfl
    · rw [if_neg (fun hh => h hh.symm), if_neg h]
  | cons e rest ih =>
    obtain ⟨k1, rs1⟩ := e
    simp only [addToBuckets]
    by_cases h1 : k1 = k
    · subst h1
      simp only [lookupB]
      by_cases h2 : k1 = q
      · rw [if_pos h2, if_pos h2.symm, if_pos h2]
      · rw [if_neg h2, if_neg (show ¬ q = k1 from fun hh => h2 hh.symm), if_neg h2]
    · rw [if_neg h1]
      simp only [lookupB]
      by_cases h2 : k1 = q
      · rw [if_pos h2, if_pos h2, if_neg (show ¬ q = k from fun hh => h1 (h2.trans hh))]
      · rw [if_neg h2, if_neg h2, ih]

theorem lookupB_foldl (l : List LogRecord)
    (bs : List ((String × String × String) × List LogRecord))
    (q : String × String × String) :
    lookupB (l.foldl (fun bs r => addToBuckets bs (bucketKey r) r) bs) q =
      lookupB bs q ++ l.filter (fun r => bucketKey r = q) := by
  induction l generalizing bs with
  | nil => simp
  | cons r l ih =>
    simp only [List.foldl_cons]
    rw [ih, lookupB_addToBuckets]
    by_cases h : q = bucketKey r
    · rw [if_pos h, List.filter_cons_of_pos (by simp [h.symm]), List.append_assoc,
        List.singleton_append]
    · rw [if_neg h, List.filter_cons_of_neg (by simp; exact fun hh => h hh.symm)]

theorem lookupB_bucketsOf (records : List LogRecord) (q : String × String × String) :
    lookupB (bucketsOf records) q = records.filter (fun r => bucketKey r = q) := by
  have h := lookupB_foldl records [] q
  simpa [bucketsOf, lookupB] using h

theorem map_fst_addToBuckets (bs : List ((String × String × String) × List LogRecord))
    (k : String × String × String) (r : LogRecord) :
    (addToBuckets bs k r).map Prod.fst =
      if k ∈ bs.map Prod.fst then bs.map Prod.fst else bs.map Prod.fst ++ [k] := by
  induction bs with
  | nil => simp [addToBuckets]
  | cons e rest ih =>
    obtain ⟨k1, rs1⟩ := e
    simp only [addToBuckets]
    by_cases h : k1 = k
    · subst h
      simp
    · rw [if_neg h]
      simp only [List.map_cons, ih]
      by_cases hm : k ∈ rest.map Prod.fst
      · rw [if_pos hm, if_pos (by simp [hm])]
      · have hnotin : k ∉ k1 :: rest.map Prod.fst := by
          simp only [List.mem_cons]
          rintro (h1 | h2)
          · exact h h1.symm
          · exact hm h2
        rw [if_neg hm, if_neg hnotin]
        simp

theorem keys_nodup_bucketsOf (records : List LogRecord) :
    ((bucketsOf records).map Prod.fst).Nodup := by
  suffices h : ∀ (l : List LogRecord) bs, (bs.map Prod.fst).Nodup →
      ((l.foldl (fun bs r => addToBuckets bs (bucketKey r) r) bs).map Prod.fst).Nodup by
    exact h records [] (by simp)
  intro l
  induction l with
  | nil => intro bs h; exact h
  | cons r l ih =>
    intro bs h
    simp only [List.foldl_cons]
    apply ih
    rw [map_fst_addToBuckets]
    split_ifs with hm
    · exact h
    · simp [List.nodup_append, h, hm]

theorem entry_ne_nil_addToBuckets (bs : List ((String × String × String) × List LogRecord))
    (k : String × String × String) (r : LogRecord)
    (h : ∀ e ∈ bs, e.2 ≠ []) : ∀ e ∈ addToBuckets bs k r, e.2 ≠ [] := by
  induction bs with
  | nil =>
    intro e he
    simp only [addToBuckets, List.mem_singleton] at he
    subst he
    simp
  | cons e0 rest ih =>
    obtain ⟨k1, rs1⟩ := e0
    intro e he
    simp only [addToBuckets] at he
    split_ifs at he with h1
    · rcases List.mem_cons.mp he with he | he
      · subst he; simp
      · exact h e (List.mem_cons_of_mem _ he)
    · rcases List.mem_cons.mp he with he | he
      · subst he; exact h (k1, rs1) (List.mem_cons_self _ _)
      · exact ih (fun e' he' => h e' (List.mem_cons_of_mem _ he')) e he

theorem entry_ne_nil_bucketsOf (records : List LogRecord) :
    ∀ e ∈ bucketsOf records, e.2 ≠ [] := by
  suffices h : ∀ (l : List LogRecord) bs, (∀ e ∈ bs, e.2 ≠ []) →
      ∀ e ∈ l.foldl (fun bs r => addToBuckets bs (bucketKey r) r) bs, e.2 ≠ [] by
    exact h records [] (by simp)
  intro l
  induction l with
  | nil => intro bs h; exact h
  | cons r l ih =>
    intro bs h
    simp only [List.foldl_cons]
    exact ih _ (entry_ne_nil_addToBuckets bs (bucketKey r) r h)

theorem lookupB_eq_of_mem (bs : List ((String × String × String) × List LogRecord))
    (k : String × String × String) (rs : List LogRecord)
    (hmem : (k, rs) ∈ bs) (hnd : (bs.map Prod.fst).Nodup) : lookupB bs k = rs := by
  induction bs with
  | nil => cases hmem
  | cons e rest ih =>
    obtain ⟨k1, rs1⟩ := e
    rcases List.mem_cons.mp hmem with he | he
    · injection he with h1 h2
      subst h1
      subst h2
      simp [lookupB]
    · have hk : k1 ≠ k := by
        intro hkk
        subst hkk
        have hmem2 : k1 ∈ rest.map Prod.fst :=
          List.mem_map.mpr ⟨(k1, rs), he, rfl⟩
        simp only [List.map_cons, List.nodup_cons] at hnd
        exact hnd.1 hmem2
      have hnd2 : (rest.map Prod.fst).Nodup := by
        simp only [List.map_cons, List.nodup_cons] at hnd
        exact hnd.2
      simp only [lookupB, if_neg hk]
      exact ih he hnd2

/-- Every entry of the bucket dictionary is the (non-empty) sublist of records
with exactly that key. -/
theorem bucket_entry_spec (records : List LogRecord) (k : String × String × String)
    (rs : List LogRecord) (h : (k, rs) ∈ bucketsOf records) :
    rs = records.filter (fun r => bucketKey r = k) ∧ rs ≠ [] :=
  ⟨by rw [← lookupB_eq_of_mem _ _ _ h (keys_nodup_bucketsOf records), lookupB_bucketsOf],
   entry_ne_nil_bucketsOf records _ h⟩

/-! ### Idempotence of the level bucketing -/

theorem charOfNat_toNat (m : Nat) (h : m < 55296) : (Char.ofNat m).toNat = m := by
  unfold Char.ofNat
  rw [dif_pos]
  · rfl
  · exact Or.inl h

theorem toUpper_idem (c : Char) : c.toUpper.toUpper = c.toUpper := by
  unfold Char.toUpper
  by_cases h : c.toNat ≥ 97 ∧ c.toNat ≤ 122
  · rw [if_pos h]
    have hval : (Char.ofNat (c.toNat - 32)).toNat = c.toNat - 32 :=
      charOfNat_toNat _ (by omega)
    rw [if_neg (by omega)]
  · rw [if_neg h, if_neg h]

theorem pyUpper_idem (s : String) : pyUpper (pyUpper s) = pyUpper s := by
  unfold pyUpper
  congr 1
  simp only [List.map_map]
  exact List.map_congr_left (fun c _ => toUpper_idem c)

theorem pyUpper_ne_empty (s : String) (h : s ≠ "") : pyUpper s ≠ "" := by
  intro he
  apply h
  have hd : (pyUpper s).data = [] := by rw [he]
  unfold pyUpper at hd
  simp only [List.map_eq_nil_iff] at hd
  cases s
  simp_all

theorem bucketLevel_idem (l : String) : bucketLevel (bucketLevel l) = bucketLevel l := by
  unfold bucketLevel
  by_cases hw : pyUpper (if l = "" then "UNKNOWN" else l) = "WARNING"
  · simp only [hw, if_pos rfl]
    decide
  · simp only [hw, if_neg hw, if_false]
    have hne : (if l = "" then "UNKNOWN" else l) ≠ "" := by
      split_ifs with h
      · decide
      · exact h
    have h1 : pyUpper (if l = "" then "UNKNOWN" else l) ≠ "" := pyUpper_ne_empty _ hne
    rw [if_neg h1, pyUpper_idem, if_neg hw]

theorem serviceOf_ne_empty (r : LogRecord) : serviceOf r ≠ "" := by
  unfold serviceOf
  split_ifs with h
  · decide
  · exact h

/-! ### Length lemmas for the line reconstruction in `group_and_rank` -/

theorem length_dedupLines_le (seen : List (ℤ × String)) (l : List ParsedLogLine) :
    (dedupLines seen l).length ≤ l.length := by
  induction l generalizing seen with
  | nil => simp [dedupLines]
  | cons p rest ih =>
    simp only [dedupLines]
    split_ifs
    · exact le_trans (ih _) (by simp)
    · simpa using ih ((p.line_number, p.raw_line) :: seen)

theorem length_groupLinesFor_le (parsed : List ParsedLogLine)
    (matching : List LogRecord) :
    (groupLinesFor parsed matching).length ≤ matching.length := by
  suffices h : ∀ (l : List LogRecord) (acc : List ParsedLogLine),
      ((l.foldl (fun acc rc =>
          match parsed.find? (fun p => p.raw_line == rc.raw) with
          | some p => acc ++ [p]
          | none => acc) acc).length ≤ acc.length + l.length) by
    simpa [groupLinesFor] using h matching []
  intro l
  induction l with
  | nil => simp
  | cons rc l ih =>
    intro acc
    simp only [List.foldl_cons, List.length_cons]
    rcases hf : parsed.find? (fun p => p.raw_line == rc.raw) with _ | p
    · have h1 := ih acc
      simp only [hf]
      omega
    · have h1 := ih (acc ++ [p])
      simp only [hf]
      simp only [List.length_append, List.length_singleton] at h1
      omega

/-! ### Field lemmas -/

theorem mkLogGroup_service (k : String × String × String) (items : List LogRecord) :
    (mkLogGroup k items).service = k.1 := rfl

theorem mkLogGroup_level (k : String × String × String) (items : List LogRecord) :
    (mkLogGroup k items).level = k.2.1 := rfl

theorem mkLogGroup_norm (k : String × String × String) (items : List LogRecord) :
    (mkLogGroup k items).normalized_message = k.2.2 := rfl

theorem mkLogGroup_count (k : String × String × String) (items : List LogRecord) :
    (mkLogGroup k items).count = items.length := rfl

theorem mkIncident_count (parsed : List ParsedLogLine) (records : List LogRecord)
    (lg : LogGroup) : (mkIncident parsed records lg).count = lg.count := rfl

theorem mkIncident_lines (parsed : List ParsedLogLine) (records : List LogRecord)
    (lg : LogGroup) :
    (mkIncident parsed records lg).lines =
      dedupLines [] (groupLinesFor parsed
        (records.filter (fun r => matchesGroup lg r))) := rfl

theorem mem_group_and_rank (pt : String → Option ℤ) (now : ℤ)
    (parsed : List ParsedLogLine) (g : IncidentGroup) :
    g ∈ group_and_rank pt now parsed ↔
      g ∈ (group_logs (parsed.map (toLogRecord pt now))).map
        (mkIncident parsed (parsed.map (toLogRecord pt now))) := by
  unfold group_and_rank
  exact List.mem_insertionSort _

theorem mem_group_logs (records : List LogRecord) (lg : LogGroup) :
    lg ∈ group_logs records ↔
      lg ∈ (bucketsOf records).map (fun kv => mkLogGroup kv.1 kv.2) := by
  unfold group_logs
  exact List.mem_insertionSort _

/-- Any record matching the `group_and_rank` comprehension for the group built
from bucket `k` in fact carries bucket key `k`. -/
theorem matches_imp_bucketKey (k : String × String × String) (items : List LogRecord)
    (r0 : LogRecord) (hk0 : bucketKey r0 = k) (r : LogRecord)
    (h : matchesGroup (mkLogGroup k items) r = true) : bucketKey r = k := by
  simp only [matchesGroup, Bool.and_eq_true, beq_iff_eq, mkLogGroup_service,
    mkLogGroup_level, mkLogGroup_norm] at h
  obtain ⟨⟨hn, hs⟩, hl⟩ := h
  have hs0 : k.1 ≠ "" := by
    rw [← hk0]
    exact serviceOf_ne_empty r0
  have hl0 : bucketLevel k.2.1 = k.2.1 := by
    rw [← hk0]
    exact bucketLevel_idem r0.level
  have : bucketKey r = (k.1, k.2.1, k.2.2) := by
    unfold bucketKey serviceOf
    rw [hs, if_neg hs0, hl, hl0, hn]
  rw [this]

/-! ### Claim C1 -/

/-- C1 (amended): every incident's deduplicated `lines` field is no longer
than its `count` (the bucket size); equality can fail when the batch contains
duplicate raw lines. -/
theorem c1_lines_length_le_count (pt : String → Option ℤ) (now : ℤ)
    (parsed : List ParsedLogLine) :
    ∀ g ∈ group_and_rank pt now parsed, g.lines.length ≤ g.count := by
  intro g hg
  rw [mem_group_and_rank] at hg
  obtain ⟨lg, hlg, rfl⟩ := List.mem_map.mp hg
  rw [mem_group_logs] at hlg
  obtain ⟨⟨k, items⟩, hkv, rfl⟩ := List.mem_map.mp hlg
  obtain ⟨hitems, hne⟩ := bucket_entry_spec _ _ _ hkv
  obtain ⟨r0, hr0⟩ := List.exists_mem_of_ne_nil items hne
  have hk0 : bucketKey r0 = k := by
    rw [hitems] at hr0
    have := (List.mem_filter.mp hr0).2
    simpa using this
  set records := parsed.map (toLogRecord pt now) with hrec
  rw [mkIncident_count, mkLogGroup_count, mkIncident_lines]
  calc (dedupLines [] (groupLinesFor parsed
          (records.filter (fun r => matchesGroup (mkLogGroup k items) r)))).length
      ≤ (groupLinesFor parsed
          (records.filter (fun r => matchesGroup (mkLogGroup k items) r))).length :=
        length_dedupLines_le _ _
    _ ≤ (records.filter (fun r => matchesGroup (mkLogGroup k items) r)).length :=
        length_groupLinesFor_le _ _
    _ ≤ (records.filter (fun r => bucketKey r = k)).length := by
        apply List.Sublist.length_le
        apply List.monotone_filter_right
        intro r hr
        simpa using matches_imp_bucketKey k items r0 hk0 r hr
    _ = items.length := by rw [← hitems]

/-- The `ParsedLogLine` that `parse_lines` produces twice for the two-line
batch `["boom boom", "boom boom"]` (both copies get `line_number = 2`, the
last matching input line). -/
def c1DupLine : ParsedLogLine :=
  { line_number := 2, timestamp := none, service := none, level := none,
    message := "boom boom", raw_line := "boom boom" }

/-- C1 counterexample: on a batch with duplicate raw lines the single
resulting incident has `count = 2` but only one (deduplicated) line, so
`count ≠ length of lines`. -/
theorem c1_count_ne_lines_counterexample :
    ∃ g ∈ group_and_rank (fun _ => none) 0 [c1DupLine, c1DupLine],
      g.count ≠ g.lines.length := by
  decide

/-- The concrete incident produced for the duplicate batch of
`c1_count_ne_lines_counterexample`. -/
def c1WitnessGroup : IncidentGroup :=
  { signature := "boom boom", lines := [c1DupLine], count := 2,
    severity := "UNKNOWN", time_window := {}, services := [] }

/-- C1 witness: the amended inequality at the concrete duplicate batch. -/
theorem c1_lines_length_le_count_witness :
    c1WitnessGroup.lines.length ≤ c1WitnessGroup.count :=
  c1_lines_length_le_count (fun _ => none) 0 [c1DupLine, c1DupLine]
    c1WitnessGroup (by decide)

/-! ### Stable descending sorts (Python `list.sort(key=..., reverse=True)`) -/

theorem filter_takeWhile_not_key {α : Type} (K : α → ℕ) (v : ℕ) (L : List α) (a : α)
    (hv : K a = v) :
    (L.takeWhile (fun b => decide ¬ (K b ≤ K a))).filter
      (fun x => decide (K x = v)) = [] := by
  rw [List.filter_eq_nil_iff]
  intro x hx
  have h := List.mem_takeWhile_imp hx
  simp only [decide_eq_true_eq] at h ⊢
  omega

/-- Stability of the stable descending sort: the elements with any fixed key
value keep their original relative order. -/
theorem filter_insertionSort_key {α : Type} (K : α → ℕ) (v : ℕ) (l : List α) :
    ((l.insertionSort (fun a b => K b ≤ K a)).filter (fun x => decide (K x = v))) =
      l.filter (fun x => decide (K x = v)) := by
  induction l with
  | nil => rfl
  | cons a l ih =>
    rw [List.insertionSort_cons_eq_take_drop, List.filter_append]
    have hsplit : (List.insertionSort (fun a b => K b ≤ K a) l).filter
        (fun x => decide (K x = v)) =
        ((List.insertionSort (fun a b => K b ≤ K a) l).takeWhile
          (fun b => decide ¬ (K b ≤ K a))).filter (fun x => decide (K x = v)) ++
        ((List.insertionSort (fun a b => K b ≤ K a) l).dropWhile
          (fun b => decide ¬ (K b ≤ K a))).filter (fun x => decide (K x = v)) := by
      rw [← List.filter_append, List.takeWhile_append_dropWhile]
    by_cases hv : K a = v
    · rw [filter_takeWhile_not_key K v _ a hv]
      rw [filter_takeWhile_not_key K v _ a hv] at hsplit
      simp only [List.nil_append] at hsplit
      rw [List.filter_cons_of_pos (by simpa using hv), List.nil_append,
        ← hsplit, ih, List.filter_cons_of_pos (by simpa using hv)]
    · rw [List.filter_cons_of_neg (by simpa using hv), List.filter_cons_of_neg
        (by simpa using hv), ← hsplit, ih]

theorem sorted_insertionSort_key {α : Type} (K : α → ℕ) (l : List α) :
    (l.insertionSort (fun a b => K b ≤ K a)).Sorted (fun a b => K b ≤ K a) := by
  haveI : IsTotal α (fun a b => K b ≤ K a) := ⟨fun a b => le_total (K b) (K a)⟩
  haveI : IsTrans α (fun a b => K b ≤ K a) := ⟨fun a b c h1 h2 => le_trans h2 h1⟩
  exact List.sorted_insertionSort _ _

theorem tsLeB_total (x y : Option ℤ) : tsLeB x y = true ∨ tsLeB y x = true := by
  cases x <;> cases y <;> simp only [tsLeB, decide_eq_true_eq]
  · exact Or.inl trivial
  · exact Or.inl trivial
  · exact Or.inr trivial
  · exact Int.le_total _ _

theorem tsLeB_trans (x y z : Option ℤ) (h1 : tsLeB x y = true)
    (h2 : tsLeB y z = true) : tsLeB x z = true := by
  cases x <;> cases y <;> cases z <;> simp_all [tsLeB] <;> omega

theorem lexLeB_total (x y : ℕ × Option ℤ) : lexLeB x y = true ∨ lexLeB y x = true := by
  obtain ⟨c1, t1⟩ := x
  obtain ⟨c2, t2⟩ := y
  simp only [lexLeB, Bool.or_eq_true, Bool.and_eq_true, decide_eq_true_eq]
  rcases Nat.lt_trichotomy c1 c2 with h | h | h
  · exact Or.inl (Or.inl h)
  · subst h
    rcases tsLeB_total t1 t2 with ht | ht
    · exact Or.inl (Or.inr ⟨rfl, ht⟩)
    · exact Or.inr (Or.inr ⟨rfl, ht⟩)
  · exact Or.inr (Or.inl h)

theorem lexLeB_trans (x y z : ℕ × Option ℤ) (h1 : lexLeB x y = true)
    (h2 : lexLeB y z = true) : lexLeB x z = true := by
  obtain ⟨c1, t1⟩ := x
  obtain ⟨c2, t2⟩ := y
  obtain ⟨c3, t3⟩ := z
  simp only [lexLeB, Bool.or_eq_true, Bool.and_eq_true, decide_eq_true_eq] at h1 h2 ⊢
  rcases h1 with h1 | ⟨h1e, h1t⟩ <;> rcases h2 with h2 | ⟨h2e, h2t⟩
  · exact Or.inl (lt_trans h1 h2)
  · exact Or.inl (h2e ▸ h1)
  · exact Or.inl (h1e ▸ h2)
  · exact Or.inr ⟨h1e.trans h2e, tsLeB_trans _ _ _ h1t h2t⟩

/-! ### Claim C2 -/

/-- C2 (amended): the canonical `group_and_rank` output is ordered by
`count × severity-weight` descending (not by raw count); groups with equal
product keep the grouping engine's order, and the grouping engine itself
orders by `(count, latest timestamp)` descending. -/
theorem c2_group_and_rank_ordering (pt : String → Option ℤ) (now : ℤ)
    (parsed : List ParsedLogLine) :
    (group_and_rank pt now parsed).Sorted
        (fun a b => rankProduct b ≤ rankProduct a) ∧
    (∀ v : ℕ, (group_and_rank pt now parsed).filter (fun g => rankProduct g = v) =
      ((group_logs (parsed.map (toLogRecord pt now))).map
        (mkIncident parsed (parsed.map (toLogRecord pt now)))).filter
        (fun g => rankProduct g = v)) ∧
    (group_logs (parsed.map (toLogRecord pt now))).Sorted
        (fun a b => lexLeB (groupKeyOf b) (groupKeyOf a) = true) := by
  refine ⟨?_, ?_, ?_⟩
  · unfold group_and_rank
    exact sorted_insertionSort_key rankProduct _
  · intro v
    unfold group_and_rank
    exact filter_insertionSort_key rankProduct v _
  · unfold group_logs
    haveI : IsTotal LogGroup (fun a b => lexLeB (groupKeyOf b) (groupKeyOf a) = true) :=
      ⟨fun a b => lexLeB_total _ _⟩
    haveI : IsTrans LogGroup (fun a b => lexLeB (groupKeyOf b) (groupKeyOf a) = true) :=
      ⟨fun a b c h1 h2 => lexLeB_trans _ _ _ h2 h1⟩
    exact List.sorted_insertionSort _ _

def c2LineA : ParsedLogLine :=
  { line_number := 1, timestamp := none, service := none, level := some "INFO",
    message := "hello a", raw_line := "hello a" }

def c2LineB : ParsedLogLine :=
  { line_number := 3, timestamp := none, service := none, level := some "ERROR",
    message := "boom", raw_line := "boom" }

/-- C2 counterexample: two INFO lines and one ERROR line.  The INFO group has
count 2, the ERROR group count 1, yet `group_and_rank` puts the ERROR group
first (`1 × 50 > 2 × 5`), so the output is not ordered by count descending. -/
theorem c2_not_sorted_by_count_counterexample :
    ¬ (group_and_rank (fun _ => none) 0 [c2LineA, c2LineA, c2LineB]).Sorted
        (fun a b => b.count ≤ a.count) := by
  decide

/-! ## Evidence and explanation data model (schemas.py) -/

structure SampleLine where
  line_number : ℤ
  timestamp : Option String
  service : Option String
  level : Option String
  message : String
  raw_line : String
deriving DecidableEq, Repr

structure IncidentStats where
  total_count : ℕ
  error_count : ℕ
  warn_count : ℕ
  services : List String
  time_span_seconds : Option ℚ
deriving DecidableEq, Repr

structure EvidenceBundle where
  sample_lines : List SampleLine
  top_messages : List String
  time_window : TimeWindow
  services : List String
  stats : IncidentStats
deriving DecidableEq, Repr

structure LikelyCause where
  hypothesis : String
  evidence_line_numbers : List ℤ
deriving DecidableEq, Repr

structure IncidentExplanation where
  incident_title : String
  what_happened : String
  likely_causes : List LikelyCause
  recommended_next_steps : List String
  confidence : String
  caveats : List String
  referenced_line_numbers : List ℤ
deriving DecidableEq, Repr

/-! ## String helpers for the fallback explainer and guardrails -/

def pyLower (s : String) : String := ⟨s.data.map Char.toLower⟩

/-- Python `s.replace(old, new)` (left-to-right, non-overlapping; `old` is
never empty where the code calls it). -/
def pyReplace (s old new : String) : String :=
  ⟨pySub (fun _ rest => if old.data.isPrefixOf rest then some old.data.length else none)
    new.data s.data⟩

def containsSubL (needle : List Char) : List Char → Bool
  | [] => needle.isEmpty
  | c :: cs => needle.isPrefixOf (c :: cs) || containsSubL needle cs

/-- Python `needle in hay` for strings. -/
def pyContains (hay needle : String) : Bool := containsSubL needle.data hay.data

/-- Round half to even (CPython float formatting), on exact rationals,
computed on numerator and denominator so that it kernel-reduces. -/
def roundHalfEven (q : ℚ) : ℤ :=
  let f := Int.fdiv q.num (Int.ofNat q.den)
  let r := q.num - f * Int.ofNat q.den
  if 2 * r < Int.ofNat q.den then f
  else if 2 * r > Int.ofNat q.den then f + 1
  else if f % 2 = 0 then f else f + 1

/-- Exact scaling `q * mulN / divN` via `mkRat` (the Batteries `Rat.mul` is
irreducible and would not evaluate inside the kernel). -/
def ratScale (q : ℚ) (mulN divN : ℕ) : ℚ := mkRat (q.num * mulN) (q.den * divN)

/-- Python `f"{x:.1f}"`, modelled on exact rationals (the code formats a
float; no claim depends on the rendered digits). -/
def fmt1 (q : ℚ) : String :=
  let n := roundHalfEven (ratScale q 10 1)
  let sign := if n < 0 then "-" else ""
  let m := n.natAbs
  sign ++ toString (m / 10) ++ "." ++ toString (m % 10)

/-! ## Fallback explainer (src/app/services/fallback.py) -/

def _generate_title (signature : String) (evidence : EvidenceBundle) : String :=
  let severity :=
    if evidence.stats.error_count > 0 then "Error"
    else if evidence.stats.warn_count > 0 then "Warning"
    else "Issue"
  let key_phrase : String := ⟨signature.data.take 60⟩
  let key_phrase := if signature.data.length > 60 then key_phrase ++ "..." else key_phrase
  let key_phrase :=
    pyReplace (pyReplace (pyReplace (pyReplace key_phrase "{N}" "N") "{UUID}" "ID")
      "{IP}" "IP") "{HEX}" "hex"
  let services_str :=
    if evidence.services ≠ [] then
      " in " ++ String.intercalate ", " (evidence.services.take 2)
    else ""
  severity ++ ": " ++ key_phrase ++ services_str

def _generate_what_happened (evidence : EvidenceBundle) (signature : String) : String :=
  let stats := evidence.stats
  let parts := ["Detected " ++ toString stats.total_count ++ " occurrence(s) of this pattern."]
  let parts := parts ++
    (if stats.error_count > 0 then [toString stats.error_count ++ " were ERROR level."] else [])
  let parts := parts ++
    (if stats.warn_count > 0 then [toString stats.warn_count ++ " were WARNING level."] else [])
  let parts := parts ++
    (if stats.services ≠ [] then
      ["Affected services: " ++ String.intercalate ", " stats.services ++ "."] else [])
  let parts := parts ++
    (match stats.time_span_seconds with
     | none => []
     | some t =>
       if t < 60 then ["Time span: " ++ fmt1 t ++ " seconds."]
       else if t < 3600 then ["Time span: " ++ fmt1 (ratScale t 1 60) ++ " minutes."]
       else ["Time span: " ++ fmt1 (ratScale t 1 3600) ++ " hours."])
  let parts := parts ++
    (match pyTruthyStr evidence.time_window.first_seen with
     | some fs => ["First seen: " ++ fs ++ "."]
     | none => [])
  String.intercalate " " parts

/-- One conditional keyword-driven hypothesis block of
`_generate_likely_causes`. -/
def keywordCauses (all_messages : String) (line_numbers : List ℤ) : List LikelyCause :=
  (if ["connection", "connect", "timeout", "refused"].any
      (fun kw => pyContains all_messages kw) then
    [⟨"Network connectivity issue or service unavailable", line_numbers.take 2⟩] else []) ++
  (if ["memory", "heap", "oom", "out of memory"].any
      (fun kw => pyContains all_messages kw) then
    [⟨"Memory exhaustion or memory leak", line_numbers.take 2⟩] else []) ++
  (if ["null", "undefined", "none", "nil"].any
      (fun kw => pyContains all_messages kw) then
    [⟨"Null reference or missing data", line_numbers.take 2⟩] else []) ++
  (if ["permission", "denied", "forbidden", "unauthorized", "403", "401"].any
      (fun kw => pyContains all_messages kw) then
    [⟨"Permission or authentication issue", line_numbers.take 2⟩] else []) ++
  (if ["disk", "storage", "space", "quota"].any
      (fun kw => pyContains all_messages kw) then
    [⟨"Storage capacity or disk issue", line_numbers.take 2⟩] else []) ++
  (if ["database", "sql", "query", "db"].any
      (fun kw => pyContains all_messages kw) then
    [⟨"Database connectivity or query issue", line_numbers.take 2⟩] else [])

def _generate_likely_causes (evidence : EvidenceBundle) : List LikelyCause :=
  let line_numbers := evidence.sample_lines.map (·.line_number)
  let all_messages :=
    String.intercalate " " (evidence.sample_lines.map (fun l => pyLower l.message))
  let causes := keywordCauses all_messages line_numbers
  let causes :=
    if causes = [] then
      [⟨"Application error requiring manual investigation",
        if line_numbers = [] then [] else line_numbers.take 2⟩]
    else causes
  causes.take 3

def _generate_next_steps (evidence : EvidenceBundle) : List String :=
  let steps := ["Review the sample log entries for detailed error context"]
  let steps := steps ++
    (if evidence.services ≠ [] then
      ["Check health and metrics for: " ++ String.intercalate ", " evidence.services]
    else [])
  let steps := steps ++
    (if evidence.stats.error_count > 10 then
      ["High error count - consider immediate investigation"] else [])
  let steps := steps ++
    (match evidence.stats.time_span_seconds with
     | some t =>
       if t ≠ 0 ∧ t < 60 then ["Rapid occurrence - check for cascading failures"] else []
     | none => [])
  let steps := steps ++
    ["Search for related incidents in monitoring systems",
     "Correlate with recent deployments or configuration changes"]
  steps.take 5

/-- `generate_fallback_explanation`: the deterministic explanation used when
the external collaborator is unavailable or fails validation. -/
def generate_fallback_explanation (evidence : EvidenceBundle) (signature : String) :
    IncidentExplanation :=
  { incident_title := _generate_title signature evidence
    what_happened := _generate_what_happened evidence signature
    likely_causes := _generate_likely_causes evidence
    recommended_next_steps := _generate_next_steps evidence
    confidence := "low"
    caveats := ["This is an automated analysis without LLM assistance",
      "Manual review recommended for accurate root cause identification"]
    referenced_line_numbers := evidence.sample_lines.map (·.line_number) }

/-! ## Guardrails (guardrails.py) -/

/-- `re.findall` driver: collect the matched substrings, scanning like
`pySubGo`. -/
def findAllGo (tryM : Option Char → List Char → Option Nat) :
    Nat → Option Char → List Char → List (List Char)
  | _, _, [] => []
  | skip + 1, _, c :: cs => findAllGo tryM skip (some c) cs
  | 0, prev, c :: cs =>
    match tryM prev (c :: cs) with
    | some n => ((c :: cs).take (max n 1)) :: findAllGo tryM (max n 1 - 1) (some c) cs
    | none => findAllGo tryM 0 (some c) cs

/-- `_extract_ips`: `IP_PATTERN.findall(text)` (the guardrail pattern is the
same `\b(?:\d{1,3}\.){3}\d{1,3}\b`). -/
def _extract_ips (text : String) : List String :=
  (findAllGo matchIp 0 none text.data).map (fun l => (⟨l⟩ : String))

/-- `_extract_ports`: `PORT_PATTERN.findall(text)` with
`PORT_PATTERN = r":(\d{2,5})\b"`; the captured group is the digit run. -/
def findPortsGo : Nat → List Char → List String
  | _, [] => []
  | skip + 1, _ :: cs => findPortsGo skip cs
  | 0, c :: cs =>
    if c = ':' then
      let d := digitRun cs
      if 2 ≤ d ∧ d ≤ 5 ∧ noWordAt (cs.drop d) then
        (⟨cs.take d⟩ : String) :: findPortsGo d cs
      else findPortsGo 0 cs
    else findPortsGo 0 cs

def _extract_ports (text : String) : List String := findPortsGo 0 text.data

def BANNED_PHRASES : List String :=
  ["definitely", "root cause is", "must be", "guaranteed",
   "fix by", "rollback", "roll back", "deploy immediately",
   "restart database", "increase pool size", "delete", "drop table"]

/-- Python `sorted(set(l))` for strings and integers, and Python list `repr`
used inside the issue messages. -/
def strLtB : List Char → List Char → Bool
  | [], [] => false
  | [], _ :: _ => true
  | _ :: _, [] => false
  | a :: as, b :: bs =>
    if a.toNat < b.toNat then true
    else if b.toNat < a.toNat then false
    else strLtB as bs

/-- Python string `≤` (code-point lexicographic). -/
def pyStrLe (a b : String) : Bool := !(strLtB b.data a.data)

def pySortedStrSet (l : List String) : List String :=
  l.dedup.insertionSort (fun a b => pyStrLe a b = true)

def pySortedIntSet (l : List ℤ) : List ℤ :=
  l.dedup.insertionSort (fun a b => a ≤ b)

def pyReprStrList (l : List String) : String :=
  "[" ++ String.intercalate ", " (l.map (fun s => "'" ++ s ++ "'")) ++ "]"

def pyReprIntList (l : List ℤ) : String :=
  "[" ++ String.intercalate ", " (l.map toString) ++ "]"

/-- The explanation free text scanned by the grounding check, in source
order: what-happened, all hypotheses, all next steps, all caveats. -/
def outputParts (e : IncidentExplanation) : List String :=
  e.what_happened :: (e.likely_causes.map (·.hypothesis) ++
    e.recommended_next_steps ++ e.caveats)

def outputText (e : IncidentExplanation) : String :=
  String.intercalate " " (outputParts e)

def evidenceText (evidence : EvidenceBundle) : String :=
  String.intercalate " " (evidence.sample_lines.map (·.raw_line))

/-- `_check_grounding`: hallucinated IPs, hallucinated ports, then the first
banned phrase (if any). -/
def _check_grounding (explanation : IncidentExplanation) (evidence : EvidenceBundle) :
    List String :=
  let evidence_ips := _extract_ips (evidenceText evidence)
  let evidence_ports := _extract_ports (evidenceText evidence)
  let output_text := outputText explanation
  let invented_ips := (_extract_ips output_text).filter (fun ip => ip ∉ evidence_ips)
  let invented_ports := (_extract_ports output_text).filter (fun p => p ∉ evidence_ports)
  (if invented_ips ≠ [] then
    ["Hallucinated IP address(es): " ++ pyReprStrList (pySortedStrSet invented_ips)]
  else []) ++
  (if invented_ports ≠ [] then
    ["Hallucinated port number(s): " ++ pyReprStrList (pySortedStrSet invented_ports)]
  else []) ++
  (match BANNED_PHRASES.find? (fun phrase => pyContains (pyLower output_text) phrase) with
   | some phrase => ["Unsafe/overconfident phrase detected: " ++ "'" ++ phrase ++ "'"]
   | none => [])

/-! ## Schema validation (`_validate_explanation`)

The loosely-typed JSON response of the external collaborator is modelled by
`RawResponse`: each field is absent (`missing`), present with the wrong type
(`wrongType`), or well-typed (`ok`); `likely_causes` elements are either
non-objects or objects with the two keys, and line-number entries are either
integers or some non-integer value.  (`referenced_line_numbers` entries are
modelled as integers: a non-integer entry would make the Python code raise a
`TypeError` while sorting the mixed set for the error message, a crash path
outside every claim.)  Error strings that interpolate a Python value of
unknown type are rendered with a fixed placeholder. -/

inductive JField (α : Type) where
  | missing
  | wrongType
  | ok (a : α)
deriving DecidableEq, Repr

inductive RawCause where
  | notObj
  | obj (hypothesis : JField String) (evidence_line_numbers : JField (List (Option ℤ)))
deriving DecidableEq, Repr

structure RawResponse where
  incident_title : JField String
  what_happened : JField String
  likely_causes : JField (List RawCause)
  recommended_next_steps : JField (List String)
  confidence : JField String
  caveats : JField (List String)
  referenced_line_numbers : JField (List ℤ)
deriving DecidableEq, Repr

/-- The evidence-side set of valid line numbers. -/
def validLineNumbers (evidence : EvidenceBundle) : List ℤ :=
  evidence.sample_lines.map (·.line_number)

def requiredFieldErrors (raw : RawResponse) : List String :=
  (if raw.incident_title = .missing then ["Missing required field: incident_title"] else []) ++
  (if raw.what_happened = .missing then ["Missing required field: what_happened"] else []) ++
  (if raw.likely_causes = .missing then ["Missing required field: likely_causes"] else []) ++
  (if raw.recommended_next_steps = .missing then
    ["Missing required field: recommended_next_steps"] else []) ++
  (if raw.confidence = .missing then ["Missing required field: confidence"] else []) ++
  (if raw.referenced_line_numbers = .missing then
    ["Missing required field: referenced_line_numbers"] else [])

def confidenceErrors (raw : RawResponse) : List String :=
  match raw.confidence with
  | .ok s => if s = "low" ∨ s = "medium" ∨ s = "high" then []
      else ["Invalid confidence value: " ++ s]
  | .wrongType => ["Invalid confidence value: " ++ "<non-string>"]
  | .missing => ["Invalid confidence value: None"]

/-- `raw.get("likely_causes", [])` restricted to the list case. -/
def rawCauses (raw : RawResponse) : List RawCause :=
  match raw.likely_causes with
  | .ok l => l
  | _ => []

/-- The error contributed by one `likely_causes[i].evidence_line_numbers`
entry (a non-integer entry's value is rendered with a placeholder). -/
def lineNumError (valid : List ℤ) (i : ℕ) : Option ℤ → List String
  | none => ["likely_causes[" ++ toString i ++ "] has non-integer line number: " ++ "<non-int>"]
  | some n =>
    if n ∈ valid then []
    else ["likely_causes[" ++ toString i ++ "] cites invalid line number " ++
      toString n ++ " (valid: " ++ pyReprIntList (pySortedIntSet valid) ++ ")"]

/-- The errors contributed by `likely_causes[i]`. -/
def causeErrors (valid : List ℤ) (i : ℕ) (c : RawCause) : List String :=
  match c with
  | .notObj => ["likely_causes[" ++ toString i ++ "] must be an object"]
  | .obj hyp ev =>
    (if hyp = .missing then ["likely_causes[" ++ toString i ++ "] missing hypothesis"]
     else []) ++
    (match ev with
     | .wrongType => ["likely_causes[" ++ toString i ++ "].evidence_line_numbers must be a list"]
     | .missing => []
     | .ok lns => lns.flatMap (lineNumError valid i))

def causesErrorsFrom (valid : List ℤ) : ℕ → List RawCause → List String
  | _, [] => []
  | i, c :: rest => causeErrors valid i c ++ causesErrorsFrom valid (i + 1) rest

def causesSectionErrors (valid : List ℤ) (raw : RawResponse) : List String :=
  match raw.likely_causes with
  | .wrongType => ["likely_causes must be a list"]
  | .missing => []
  | .ok cs => causesErrorsFrom valid 0 cs

/-- The `cited_line_numbers` set: integers that passed the membership check. -/
def citedOf (valid : List ℤ) (causes : List RawCause) : List ℤ :=
  causes.flatMap (fun c =>
    match c with
    | .notObj => []
    | .obj _ ev =>
      match ev with
      | .ok lns => lns.filterMap (fun ln =>
          match ln with
          | some n => if n ∈ valid then some n else none
          | none => none)
      | _ => [])

def referencedSectionErrors (valid cited : List ℤ) (raw : RawResponse) : List String :=
  match raw.referenced_line_numbers with
  | .wrongType => ["referenced_line_numbers must be a list"]
  | .missing => ["referenced_line_numbers must be a list"]
  | .ok referenced =>
    (if cited.filter (fun n => n ∉ referenced) ≠ [] then
      ["referenced_line_numbers missing cited lines: " ++
        pyReprIntList (pySortedIntSet (cited.filter (fun n => n ∉ referenced)))]
    else []) ++
    (if referenced.filter (fun n => n ∉ valid) ≠ [] then
      ["referenced_line_numbers contains invalid lines: " ++
        pyReprIntList (pySortedIntSet (referenced.filter (fun n => n ∉ valid)))]
    else [])

/-- The Pydantic `LikelyCause` constructions (fails on a non-string
hypothesis; at this point every cause is an object with the key present). -/
def buildCauses : List RawCause → Option (List LikelyCause)
  | [] => some []
  | .notObj :: _ => none
  | .obj hyp ev :: rest =>
    match hyp with
    | .ok h =>
      let lns := match ev with
        | .ok l => l.filterMap id
        | _ => []
      match buildCauses rest with
      | some cs => some (⟨h, lns⟩ :: cs)
      | none => none
    | _ => none

/-- A present, well-typed field. -/
def jOk {α : Type} : JField α → Option α
  | .ok a => some a
  | _ => none

/-- The Pydantic `IncidentExplanation` construction: succeeds iff every typed
field is well-typed (`caveats` defaults to `[]` when absent). -/
def pydanticBuild (raw : RawResponse) : Option IncidentExplanation := do
  let title ← jOk raw.incident_title
  let what ← jOk raw.what_happened
  let steps ← jOk raw.recommended_next_steps
  let conf ← jOk raw.confidence
  let refs ← jOk raw.referenced_line_numbers
  let cavs ← (match raw.caveats with
    | .missing => some []
    | .ok l => some l
    | .wrongType => none)
  let causes ← buildCauses (rawCauses raw)
  some ⟨title, what, causes, steps, conf, cavs, refs⟩

/-- The messages of a Pydantic `ValidationError` (their exact text is opaque
to every claim; the list is never empty). -/
def pydanticErrors (_raw : RawResponse) : List String :=
  ["Pydantic validation: type error"]

def _validate_explanation (raw : RawResponse) (evidence : EvidenceBundle) :
    Option IncidentExplanation × List String :=
  let valid := validLineNumbers evidence
  let e1 := requiredFieldErrors raw
  if e1 ≠ [] then (none, e1)
  else
    let errs := confidenceErrors raw ++ causesSectionErrors valid raw ++
      referencedSectionErrors valid (citedOf valid (rawCauses raw)) raw
    if errs ≠ [] then (none, errs)
    else
      match pydanticBuild raw with
      | some e => (some e, [])
      | none => (none, pydanticErrors raw)

/-! ## The guardrail orchestrator (`get_validated_explanation`)

The two collaborator calls (`explain_incident` and `fix_json_with_llm`) are
external oracles; their replies enter as the `rawOpt` and `fixOpt`
parameters. -/

/-- Retry-and-fallback tail of `get_validated_explanation`, entered with the
accumulated first-pass error list. -/
def retryStage (fixOpt : Option RawResponse) (evidence : EvidenceBundle)
    (signature : String) (acc : List String) :
    IncidentExplanation × Bool × List String :=
  match fixOpt with
  | some fixed =>
    match _validate_explanation fixed evidence with
    | (some e2, _) =>
      let g2 := _check_grounding e2 evidence
      if g2 = [] then (e2, true, acc)
      else (generate_fallback_explanation evidence signature, false,
        (acc ++ g2) ++ ["Fell back to deterministic explanation after validation failures"])
    | (none, retry_errors) =>
      (generate_fallback_explanation evidence signature, false,
        (acc ++ retry_errors) ++
          ["Fell back to deterministic explanation after validation failures"])
  | none =>
    (generate_fallback_explanation evidence signature, false,
      acc ++ ["Fell back to deterministic explanation after validation failures"])

def get_validated_explanation (rawOpt fixOpt : Option RawResponse)
    (evidence : EvidenceBundle) (signature : String) :
    IncidentExplanation × Bool × List String :=
  match rawOpt with
  | none => (generate_fallback_explanation evidence signature, false, ["LLM not available"])
  | some raw =>
    match _validate_explanation raw evidence with
    | (some e, errors) =>
      let grounding := _check_grounding e evidence
      if grounding = [] then (e, true, [])
      else retryStage fixOpt evidence signature (grounding ++ errors)
    | (none, errors) => retryStage fixOpt evidence signature errors

/-! ### Validation lemmas -/

/-- All line numbers cited anywhere in an explanation. -/
def explanationLineNumbers (e : IncidentExplanation) : List ℤ :=
  e.referenced_line_numbers ++ e.likely_causes.flatMap (·.evidence_line_numbers)

theorem validate_some (raw : RawResponse) (evidence : EvidenceBundle)
    (e : IncidentExplanation) (errs : List String)
    (h : _validate_explanation raw evidence = (some e, errs)) :
    errs = [] ∧ pydanticBuild raw = some e ∧
      causesSectionErrors (validLineNumbers evidence) raw = [] ∧
      referencedSectionErrors (validLineNumbers evidence)
        (citedOf (validLineNumbers evidence) (rawCauses raw)) raw = [] := by
  simp only [_validate_explanation] at h
  split_ifs at h with h1 h2
  · simp at h
  · simp at h
  · push_neg at h2
    rcases List.append_eq_nil.mp h2 with ⟨h3, h4⟩
    rcases List.append_eq_nil.mp h3 with ⟨_, h5⟩
    rcases hb : pydanticBuild raw with _ | e2
    · rw [hb] at h
      simp at h
    · rw [hb] at h
      simp only [Prod.mk.injEq, Option.some.injEq] at h
      exact ⟨h.2.symm, congrArg some h.1, h5, h4⟩

theorem causeErrors_nil_evidence (valid : List ℤ) (i : ℕ) (hyp : JField String)
    (lns : List (Option ℤ))
    (h : causeErrors valid i (.obj hyp (.ok lns)) = []) :
    ∀ ln ∈ lns, ∃ n, ln = some n ∧ n ∈ valid := by
  intro ln hln
  simp only [causeErrors] at h
  rcases List.append_eq_nil.mp h with ⟨_, h2⟩
  have h3 := List.flatMap_eq_nil_iff.mp h2 ln hln
  cases ln with
  | none => simp [lineNumError] at h3
  | some n =>
    refine ⟨n, rfl, ?_⟩
    by_contra hmem
    simp only [lineNumError, if_neg hmem] at h3
    cases h3

theorem causesErrorsFrom_nil (valid : List ℤ) (i : ℕ) (cs : List RawCause)
    (h : causesErrorsFrom valid i cs = []) :
    ∀ c ∈ cs, ∃ k, causeErrors valid k c = [] := by
  induction cs generalizing i with
  | nil => intro c hc; cases hc
  | cons c0 rest ih =>
    simp only [causesErrorsFrom] at h
    rcases List.append_eq_nil.mp h with ⟨h1, h2⟩
    intro c hc
    rcases List.mem_cons.mp hc with rfl | hc
    · exact ⟨i, h1⟩
    · exact ih (i + 1) h2 c hc

theorem buildCauses_subset (valid : List ℤ) (cs : List RawCause)
    (causes : List LikelyCause) (hb : buildCauses cs = some causes)
    (herr : ∀ c ∈ cs, ∃ k, causeErrors valid k c = []) :
    ∀ lc ∈ causes, ∀ n ∈ lc.evidence_line_numbers, n ∈ valid := by
  induction cs generalizing causes with
  | nil =>
    simp only [buildCauses, Option.some.injEq] at hb
    subst hb
    intro lc hlc
    cases hlc
  | cons c0 rest ih =>
    cases c0 with
    | notObj => simp [buildCauses] at hb
    | obj hyp ev =>
      simp only [buildCauses] at hb
      cases hyp with
      | missing => simp at hb
      | wrongType => simp at hb
      | ok hstr =>
        simp only at hb
        rcases hrest : buildCauses rest with _ | cs2
        · rw [hrest] at hb
          simp at hb
        · rw [hrest] at hb
          simp only [Option.some.injEq] at hb
          subst hb
          intro lc hlc
          rcases List.mem_cons.mp hlc with rfl | hlc
          · intro n hn
            cases ev with
            | ok lns =>
              simp only [List.mem_filterMap, id] at hn
              obtain ⟨ln, hln, hid⟩ := hn
              obtain ⟨k, hk⟩ := herr _ (List.mem_cons_self _ _)
              obtain ⟨m, hm, hmv⟩ := causeErrors_nil_evidence valid k (JField.ok hstr) lns
                (by simpa using hk) ln hln
              rw [hm] at hid
              cases hid
              exact hmv
            | missing => simp at hn
            | wrongType => simp at hn
          · exact ih cs2 hrest (fun c hc => herr c (List.mem_cons_of_mem _ hc)) lc hlc

theorem jOk_eq_some {α : Type} (x : JField α) (a : α) (h : jOk x = some a) :
    x = .ok a := by
  cases x with
  | ok b => injection h with h; rw [h]
  | missing => cases h
  | wrongType => cases h

theorem pydanticBuild_refs (raw : RawResponse) (e : IncidentExplanation)
    (h : pydanticBuild raw = some e) :
    raw.referenced_line_numbers = .ok e.referenced_line_numbers ∧
      buildCauses (rawCauses raw) = some e.likely_causes := by
  unfold pydanticBuild at h
  rcases hti : raw.incident_title with _ | _ | title <;> rw [hti] at h
  · cases h
  · cases h
  rcases hwh : raw.what_happened with _ | _ | what <;> rw [hwh] at h
  · cases h
  · cases h
  rcases hst : raw.recommended_next_steps with _ | _ | steps <;> rw [hst] at h
  · cases h
  · cases h
  rcases hcf : raw.confidence with _ | _ | conf <;> rw [hcf] at h
  · cases h
  · cases h
  rcases hrf : raw.referenced_line_numbers with _ | _ | refs <;> rw [hrf] at h
  · cases h
  · cases h
  rcases hcv : raw.caveats with _ | _ | cavs <;> rw [hcv] at h
  · rcases hbc : buildCauses (rawCauses raw) with _ | causes <;> rw [hbc] at h
    · cases h
    · injection h with h
      subst h
      exact ⟨rfl, rfl⟩
  · cases h
  · rcases hbc : buildCauses (rawCauses raw) with _ | causes <;> rw [hbc] at h
    · cases h
    · injection h with h
      subst h
      exact ⟨rfl, rfl⟩

theorem referenced_nil_subset (valid cited : List ℤ) (raw : RawResponse)
    (refs : List ℤ) (hraw : raw.referenced_line_numbers = .ok refs)
    (h : referencedSectionErrors valid cited raw = []) :
    ∀ n ∈ refs, n ∈ valid := by
  simp only [referencedSectionErrors, hraw] at h
  rcases List.append_eq_nil.mp h with ⟨_, h2⟩
  intro n hn
  by_contra hmem
  have hne : refs.filter (fun n => n ∉ valid) ≠ [] := by
    intro hnil
    have := List.filter_eq_nil_iff.mp hnil n hn
    simp [hmem] at this
  rw [if_pos hne] at h2
  simp at h2

/-- A validated explanation only cites evidence sample line numbers. -/
theorem validate_subset (raw : RawResponse) (evidence : EvidenceBundle)
    (e : IncidentExplanation) (errs : List String)
    (h : _validate_explanation raw evidence = (some e, errs)) :
    ∀ n ∈ explanationLineNumbers e, n ∈ validLineNumbers evidence := by
  obtain ⟨-, hbuild, hcauses, hrefs⟩ := validate_some raw evidence e errs h
  obtain ⟨hrefok, hbc⟩ := pydanticBuild_refs raw e hbuild
  intro n hn
  rcases List.mem_append.mp hn with hn | hn
  · exact referenced_nil_subset _ _ raw _ hrefok hrefs n hn
  · simp only [List.mem_flatMap] at hn
    obtain ⟨lc, hlc, hnlc⟩ := hn
    have hper : ∀ c ∈ rawCauses raw, ∃ k, causeErrors (validLineNumbers evidence) k c = [] := by
      unfold causesSectionErrors at hcauses
      unfold rawCauses
      rcases hl : raw.likely_causes with _ | _ | cs
      · intro c hc; cases hc
      · rw [hl] at hcauses; simp at hcauses
      · rw [hl] at hcauses
        exact causesErrorsFrom_nil _ 0 cs hcauses
    exact buildCauses_subset _ _ _ hbc hper lc hlc n hnlc

/-! ### Fallback explainer lemmas -/

theorem mem_keywordCauses_evidence (m : String) (lns : List ℤ) (lc : LikelyCause)
    (h : lc ∈ keywordCauses m lns) : lc.evidence_line_numbers = lns.take 2 := by
  unfold keywordCauses at h
  simp only [List.mem_append] at h
  rcases h with ((((h | h) | h) | h) | h) | h <;>
  · split at h
    · simp only [List.mem_singleton] at h
      subst h
      rfl
    · simp at h

theorem fallback_causes_subset (evidence : EvidenceBundle) :
    ∀ lc ∈ _generate_likely_causes evidence, ∀ n ∈ lc.evidence_line_numbers,
      n ∈ validLineNumbers evidence := by
  intro lc hlc n hn
  simp only [_generate_likely_causes] at hlc
  have hlc2 := List.mem_of_mem_take hlc
  split at hlc2
  · simp only [List.mem_singleton] at hlc2
    subst hlc2
    simp only at hn
    split at hn
    · cases hn
    · exact List.take_subset _ _ hn
  · have := mem_keywordCauses_evidence _ _ _ hlc2
    rw [this] at hn
    exact List.take_subset _ _ hn

theorem fallback_subset (evidence : EvidenceBundle) (sig : String) :
    ∀ n ∈ explanationLineNumbers (generate_fallback_explanation evidence sig),
      n ∈ validLineNumbers evidence := by
  intro n hn
  rcases List.mem_append.mp hn with hn | hn
  · exact hn
  · simp only [List.mem_flatMap] at hn
    obtain ⟨lc, hlc, hnlc⟩ := hn
    exact fallback_causes_subset evidence lc hlc n hnlc

/-! ### Orchestrator decomposition lemmas -/

/-- The error list accumulated by the first pass. -/
def firstPassErrors (raw : RawResponse) (evidence : EvidenceBundle) : List String :=
  match _validate_explanation raw evidence with
  | (some e, errors) => _check_grounding e evidence ++ errors
  | (none, errors) => errors

/-- The error list accumulated by the retry pass. -/
def retryErrors (fixOpt : Option RawResponse) (evidence : EvidenceBundle) : List String :=
  match fixOpt with
  | none => []
  | some fixed =>
    match _validate_explanation fixed evidence with
    | (some e2, _) => _check_grounding e2 evidence
    | (none, retry_errors) => retry_errors

/-- The first external response validates and passes grounding. -/
def cleanFirstPass (raw : RawResponse) (evidence : EvidenceBundle) : Prop :=
  ∃ e errs, _validate_explanation raw evidence = (some e, errs) ∧
    _check_grounding e evidence = []

/-- The repair response exists, validates, and passes grounding. -/
def cleanRetry (fixOpt : Option RawResponse) (evidence : EvidenceBundle) : Prop :=
  ∃ fixed e2 errs2, fixOpt = some fixed ∧
    _validate_explanation fixed evidence = (some e2, errs2) ∧
    _check_grounding e2 evidence = []

theorem retryStage_spec (fixOpt : Option RawResponse) (evidence : EvidenceBundle)
    (sig : String) (acc : List String) :
    ((retryStage fixOpt evidence sig acc).2.1 = true ↔ cleanRetry fixOpt evidence) ∧
    ((retryStage fixOpt evidence sig acc).2.1 = false →
      (retryStage fixOpt evidence sig acc).1 = generate_fallback_explanation evidence sig ∧
      (retryStage fixOpt evidence sig acc).2.2 =
        acc ++ retryErrors fixOpt evidence ++
          ["Fell back to deterministic explanation after validation failures"]) ∧
    (∀ n ∈ explanationLineNumbers (retryStage fixOpt evidence sig acc).1,
      n ∈ validLineNumbers evidence) := by
  cases fixOpt with
  | none =>
    refine ⟨⟨fun h => absurd h (by simp [retryStage]), ?_⟩, fun _ => ⟨rfl, ?_⟩,
      fallback_subset evidence sig⟩
    · rintro ⟨fixed, e2, errs2, hf, -, -⟩
      cases hf
    · show acc ++ _ = acc ++ [] ++ _
      rw [List.append_nil]
  | some fixed =>
    rcases hv : _validate_explanation fixed evidence with ⟨eOpt, errs⟩
    cases eOpt with
    | none =>
      have hred : retryStage (some fixed) evidence sig acc =
          (generate_fallback_explanation evidence sig, false,
            (acc ++ errs) ++
              ["Fell back to deterministic explanation after validation failures"]) := by
        simp only [retryStage, hv]
      refine ⟨?_, ?_, ?_⟩
      · rw [hred]
        constructor
        · intro h
          simp at h
        · rintro ⟨fixed2, e3, errs3, hf, hval, -⟩
          injection hf with hf
          subst hf
          rw [hv] at hval
          cases hval
      · intro _
        rw [hred]
        refine ⟨rfl, ?_⟩
        simp only [retryErrors, hv]
      · rw [hred]
        exact fallback_subset evidence sig
    | some e2 =>
      by_cases hg : _check_grounding e2 evidence = []
      · have hred : retryStage (some fixed) evidence sig acc = (e2, true, acc) := by
          simp only [retryStage, hv, if_pos hg]
        refine ⟨?_, ?_, ?_⟩
        · rw [hred]
          exact ⟨fun _ => ⟨fixed, e2, errs, rfl, hv, hg⟩, fun _ => rfl⟩
        · rw [hred]
          intro h
          simp at h
        · rw [hred]
          exact validate_subset fixed evidence e2 errs hv
      · have hred : retryStage (some fixed) evidence sig acc =
            (generate_fallback_explanation evidence sig, false,
              (acc ++ _check_grounding e2 evidence) ++
                ["Fell back to deterministic explanation after validation failures"]) := by
          simp only [retryStage, hv, if_neg hg]
        refine ⟨?_, ?_, ?_⟩
        · rw [hred]
          constructor
          · intro h
            simp at h
          · rintro ⟨fixed2, e3, errs3, hf, hval, hg3⟩
            injection hf with hf
            subst hf
            rw [hv] at hval
            injection hval with h1 h2
            injection h1 with h1
            subst h1
            exact absurd hg3 hg
        · intro _
          rw [hred]
          refine ⟨rfl, ?_⟩
          simp only [retryErrors, hv]
        · rw [hred]
          exact fallback_subset evidence sig

/-! ### Claim C3 -/

/-- C3: every line number appearing in the explanation emitted by the
guardrail orchestrator — validated external response or fallback, first pass
or retry — belongs to the evidence bundle's sample line numbers. -/
theorem c3_explanation_line_numbers_grounded (rawOpt fixOpt : Option RawResponse)
    (evidence : EvidenceBundle) (signature : String) :
    ∀ n ∈ explanationLineNumbers
        (get_validated_explanation rawOpt fixOpt evidence signature).1,
      n ∈ validLineNumbers evidence := by
  cases rawOpt with
  | none =>
    simp only [get_validated_explanation]
    exact fallback_subset evidence signature
  | some raw =>
    simp only [get_validated_explanation]
    rcases hv : _validate_explanation raw evidence with ⟨eOpt, errs⟩
    cases eOpt with
    | none => exact (retryStage_spec fixOpt evidence signature errs).2.2
    | some e =>
      simp only
      by_cases hg : _check_grounding e evidence = []
      · rw [if_pos hg]
        exact validate_subset raw evidence e errs hv
      · rw [if_neg hg]
        exact (retryStage_spec fixOpt evidence signature
          (_check_grounding e evidence ++ errs)).2.2

/-! ### Claim C8 -/

/-- C8: `used_llm = false` exactly when the fallback explanation is
returned.  Without an external response the result is exactly
`(fallback, false, ["LLM not available"])`; with one, every
`used_llm = false` outcome carries the fallback explanation and the full
accumulated error history — first-pass errors, then retry errors, then the
final appended fallback notice — while `used_llm = true` holds exactly when
the first pass or the retry validated and passed grounding. -/
theorem c8_used_llm_fallback_errors (rawOpt fixOpt : Option RawResponse)
    (evidence : EvidenceBundle) (signature : String) :
    (rawOpt = none →
      get_validated_explanation rawOpt fixOpt evidence signature =
        (generate_fallback_explanation evidence signature, false, ["LLM not available"])) ∧
    (∀ raw, rawOpt = some raw →
      (get_validated_explanation rawOpt fixOpt evidence signature).2.1 = false →
      (get_validated_explanation rawOpt fixOpt evidence signature).1 =
          generate_fallback_explanation evidence signature ∧
        (get_validated_explanation rawOpt fixOpt evidence signature).2.2 =
          firstPassErrors raw evidence ++ retryErrors fixOpt evidence ++
            ["Fell back to deterministic explanation after validation failures"]) ∧
    ((get_validated_explanation rawOpt fixOpt evidence signature).2.1 = true ↔
      ∃ raw, rawOpt = some raw ∧
        (cleanFirstPass raw evidence ∨ cleanRetry fixOpt evidence)) := by
  cases rawOpt with
  | none =>
    refine ⟨fun _ => rfl, ?_, ?_⟩
    · intro raw hr
      cases hr
    constructor
    · intro h
      simp [get_validated_explanation] at h
    · rintro ⟨raw, hr, -⟩
      cases hr
  | some raw =>
    rcases hv : _validate_explanation raw evidence with ⟨eOpt, errs⟩
    cases eOpt with
    | some e =>
      by_cases hg : _check_grounding e evidence = []
      · have hred : get_validated_explanation (some raw) fixOpt evidence signature =
            (e, true, []) := by
          simp only [get_validated_explanation, hv, if_pos hg]
        refine ⟨?_, ?_, ?_⟩
        · intro h
          cases h
        · intro raw2 hr2 hfalse
          rw [hred] at hfalse
          simp at hfalse
        · rw [hred]
          exact ⟨fun _ => ⟨raw, rfl, Or.inl ⟨e, errs, hv, hg⟩⟩, fun _ => rfl⟩
      · have hred : get_validated_explanation (some raw) fixOpt evidence signature =
            retryStage fixOpt evidence signature (_check_grounding e evidence ++ errs) := by
          simp only [get_validated_explanation, hv, if_neg hg]
        obtain ⟨hiff, hfalse, -⟩ :=
          retryStage_spec fixOpt evidence signature (_check_grounding e evidence ++ errs)
        refine ⟨?_, ?_, ?_⟩
        · intro h
          cases h
        · intro raw2 hr2 hf
          injection hr2 with hr2
          subst hr2
          rw [hred] at hf ⊢
          obtain ⟨h1, h2⟩ := hfalse hf
          refine ⟨h1, ?_⟩
          rw [h2]
          have hfp : firstPassErrors raw evidence = _check_grounding e evidence ++ errs := by
            simp only [firstPassErrors, hv]
          rw [hfp]
        · rw [hred, hiff]
          constructor
          · intro hcr
            exact ⟨raw, rfl, Or.inr hcr⟩
          · rintro ⟨raw2, hr2, hcl | hcr⟩
            · injection hr2 with hr2
              subst hr2
              obtain ⟨e2, errs2, hv2, hg2⟩ := hcl
              rw [hv] at hv2
              injection hv2 with h1 h2
              injection h1 with h1
              subst h1
              exact absurd hg2 hg
            · exact hcr
    | none =>
      have hred : get_validated_explanation (some raw) fixOpt evidence signature =
          retryStage fixOpt evidence signature errs := by
        simp only [get_validated_explanation, hv]
      obtain ⟨hiff, hfalse, -⟩ := retryStage_spec fixOpt evidence signature errs
      refine ⟨?_, ?_, ?_⟩
      · intro h
        cases h
      · intro raw2 hr2 hf
        injection hr2 with hr2
        subst hr2
        rw [hred] at hf ⊢
        obtain ⟨h1, h2⟩ := hfalse hf
        refine ⟨h1, ?_⟩
        rw [h2]
        have hfp : firstPassErrors raw evidence = errs := by
          simp only [firstPassErrors, hv]
        rw [hfp]
      · rw [hred, hiff]
        constructor
        · intro hcr
          exact ⟨raw, rfl, Or.inr hcr⟩
        · rintro ⟨raw2, hr2, hcl | hcr⟩
          · injection hr2 with hr2
            subst hr2
            obtain ⟨e2, errs2, hv2, -⟩ := hcl
            rw [hv] at hv2
            cases hv2
          · exact hcr

/-! ### Concrete scenario: evidence citing `10.0.0.5`, response citing
`10.0.0.99` (spec §8) -/

def c9Evidence : EvidenceBundle :=
  { sample_lines := [⟨1, some "2026-01-01T00:00:00", some "auth", some "ERROR",
      "Connection refused to 10.0.0.5:5432",
      "2026-01-01 00:00:00 ERROR auth Connection refused to 10.0.0.5:5432"⟩],
    top_messages := ["Connection refused to 10.0.0.5:5432"],
    time_window := ⟨some "2026-01-01T00:00:00", some "2026-01-01T00:00:00"⟩,
    services := ["auth"],
    stats := ⟨5, 5, 0, ["auth"], some (mkRat 25 1)⟩ }

def c9Raw : RawResponse :=
  { incident_title := .ok "Connection failures",
    what_happened := .ok "Connections to 10.0.0.99 were refused",
    likely_causes := .ok [],
    recommended_next_steps := .ok ["Check the database"],
    confidence := .ok "medium",
    caveats := .ok [],
    referenced_line_numbers := .ok [1] }

def c9Expl : IncidentExplanation :=
  { incident_title := "Connection failures",
    what_happened := "Connections to 10.0.0.99 were refused",
    likely_causes := [],
    recommended_next_steps := ["Check the database"],
    confidence := "medium",
    caveats := [],
    referenced_line_numbers := [1] }

/-- C8 witness, at the concrete §8 scenario: no response gives exactly
`["LLM not available"]`; a response that fails grounding (with no repair)
gives the fallback and the full error history. -/
theorem c8_used_llm_fallback_errors_witness :
    (get_validated_explanation none none c9Evidence "sig" =
      (generate_fallback_explanation c9Evidence "sig", false, ["LLM not available"])) ∧
    ((get_validated_explanation (some c9Raw) none c9Evidence "sig").1 =
        generate_fallback_explanation c9Evidence "sig" ∧
      (get_validated_explanation (some c9Raw) none c9Evidence "sig").2.2 =
        firstPassErrors c9Raw c9Evidence ++ retryErrors none c9Evidence ++
          ["Fell back to deterministic explanation after validation failures"]) :=
  ⟨(c8_used_llm_fallback_errors none none c9Evidence "sig").1 rfl,
   (c8_used_llm_fallback_errors (some c9Raw) none c9Evidence "sig").2.1 c9Raw rfl
     (by decide)⟩

/-! ### Claim C9 -/

/-- C9: whenever the explanation's free text contains an IPv4-looking token
that does not occur (as an IP token) in the evidence raw lines, the grounding
check reports the hallucinated-IP issue (so fails); and if such an
explanation is what the first pass validated, then — absent a successful
retry — the orchestrator yields `used_llm = false`. -/
theorem c9_hallucinated_ip_fails (e : IncidentExplanation) (evidence : EvidenceBundle)
    (hip : ∃ ip ∈ _extract_ips (outputText e), ip ∉ _extract_ips (evidenceText evidence)) :
    ("Hallucinated IP address(es): " ++ pyReprStrList (pySortedStrSet
        ((_extract_ips (outputText e)).filter
          (fun ip => ip ∉ _extract_ips (evidenceText evidence)))))
      ∈ _check_grounding e evidence ∧
    _check_grounding e evidence ≠ [] ∧
    (∀ raw fixOpt signature errs,
      _validate_explanation raw evidence = (some e, errs) →
      ¬ cleanRetry fixOpt evidence →
      (get_validated_explanation (some raw) fixOpt evidence signature).2.1 = false) := by
  obtain ⟨ip0, hip0, hno⟩ := hip
  have hinv : (_extract_ips (outputText e)).filter
      (fun ip => ip ∉ _extract_ips (evidenceText evidence)) ≠ [] := by
    intro hnil
    have := List.filter_eq_nil_iff.mp hnil ip0 hip0
    simp [hno] at this
  have hmem : ("Hallucinated IP address(es): " ++ pyReprStrList (pySortedStrSet
      ((_extract_ips (outputText e)).filter
        (fun ip => ip ∉ _extract_ips (evidenceText evidence)))))
      ∈ _check_grounding e evidence := by
    simp only [_check_grounding]
    rw [if_pos hinv]
    simp
  have hgne : _check_grounding e evidence ≠ [] := by
    intro hnil
    rw [hnil] at hmem
    cases hmem
  refine ⟨hmem, hgne, ?_⟩
  intro raw fixOpt signature errs hval hnc
  have hred : get_validated_explanation (some raw) fixOpt evidence signature =
      retryStage fixOpt evidence signature (_check_grounding e evidence ++ errs) := by
    simp only [get_validated_explanation, hval, if_neg hgne]
  rw [hred]
  obtain ⟨hiff, -, -⟩ :=
    retryStage_spec fixOpt evidence signature (_check_grounding e evidence ++ errs)
  cases hbool : (retryStage fixOpt evidence signature
      (_check_grounding e evidence ++ errs)).2.1 with
  | false => rfl
  | true => exact absurd (hiff.mp hbool) hnc

/-- C9 witness: the §8 scenario — evidence only contains `10.0.0.5`, the
validated response cites `10.0.0.99`, the repair collaborator is absent. -/
theorem c9_hallucinated_ip_fails_witness :
    ("Hallucinated IP address(es): " ++ pyReprStrList (pySortedStrSet
        ((_extract_ips (outputText c9Expl)).filter
          (fun ip => ip ∉ _extract_ips (evidenceText c9Evidence)))))
      ∈ _check_grounding c9Expl c9Evidence ∧
    _check_grounding c9Expl c9Evidence ≠ [] ∧
    (get_validated_explanation (some c9Raw) none c9Evidence "sig").2.1 = false := by
  obtain ⟨h1, h2, h3⟩ := c9_hallucinated_ip_fails c9Expl c9Evidence (by decide)
  refine ⟨h1, h2, h3 c9Raw none "sig" [] (by decide) ?_⟩
  rintro ⟨fixed, e2, errs2, hf, -, -⟩
  cases hf

/-- C3 witness: at the §8 scenario the orchestrator's final explanation
cites line 1, and line 1 is indeed a sample-line number of the evidence. -/
theorem c3_explanation_line_numbers_grounded_witness :
    (1 : ℤ) ∈ explanationLineNumbers
        (get_validated_explanation (some c9Raw) none c9Evidence "sig").1 ∧
    (1 : ℤ) ∈ validLineNumbers c9Evidence :=
  ⟨by decide,
   c3_explanation_line_numbers_grounded (some c9Raw) none c9Evidence "sig" 1
     (by decide)⟩

/-! ## `parse_lines` (pipeline_interfaces.py) and the parser driver
(parser.py)

`parse_logs_from_text` iterates `log_text.splitlines()`, skips blank lines,
and builds one `LogRecord` per remaining line, via `_extract_from_json` or
`_extract_from_text`.  Both extractors set `raw = line.rstrip("\n")`, and a
`splitlines` piece contains no newline, so `raw` is the piece itself.  The
extractors' other fields (timestamps via `datetime.now`, JSON decoding) are
external detail irrelevant to line numbering, so the record builder is a
parameter `extract` constrained by `(extract l).raw = l`; likewise
`datetime.isoformat` is a parameter `isoOf`. -/

/-- The extra line terminators of Python `str.splitlines` besides
`\n`, `\r`, `\r\n`. -/
def isOtherBreak (c : Char) : Bool :=
  c = '\x0b' || c = '\x0c' || c = '\x1c' || c = '\x1d' || c = '\x1e' ||
  c = '\x85' || c = '\u2028' || c = '\u2029'

/-- Python `str.splitlines` on a char list: the flag records whether the
previous char was `\r` (so a following `\n` is part of the same break). -/
def pySplitlinesAux : Bool → List Char → List Char → List (List Char)
  | _, acc, [] => if acc.isEmpty then [] else [acc.reverse]
  | prevCR, acc, c :: rest =>
    if c = '\x0a' then
      if prevCR then pySplitlinesAux false acc rest
      else acc.reverse :: pySplitlinesAux false [] rest
    else if c = '\x0d' then
      acc.reverse :: pySplitlinesAux true [] rest
    else if isOtherBreak c then
      acc.reverse :: pySplitlinesAux false [] rest
    else
      pySplitlinesAux false (c :: acc) rest

def pySplitlines (s : String) : List String :=
  (pySplitlinesAux false [] s.data).map (fun l => ⟨l⟩)

/-- Python `"\n".join(lines)`. -/
def pyJoin (sep : String) : List String → String
  | [] => ""
  | [x] => x
  | x :: y :: xs => x ++ sep ++ pyJoin sep (y :: xs)

/-- `parser.parse_logs_from_text`, line loop: skip blank lines, extract the
rest. -/
def parseLogsGo (extract : String → LogRecord) : List String → List LogRecord
  | [] => []
  | l :: rest =>
    if pyStripS l = "" then parseLogsGo extract rest
    else extract l :: parseLogsGo extract rest

def parse_logs_from_text (extract : String → LogRecord) (log_text : String) :
    List LogRecord :=
  parseLogsGo extract (pySplitlines log_text)

/-- Python `dict.get(k, v0)` on an association list with unique keys. -/
def dictGetD : List (String × ℤ) → String → ℤ → ℤ
  | [], _, v0 => v0
  | p :: rest, k, v0 => if p.1 = k then p.2 else dictGetD rest k v0

/-- Python `d[k] = v`: overwrite in place, else append. -/
def dictInsert : List (String × ℤ) → String → ℤ → List (String × ℤ)
  | [], k, v => [(k, v)]
  | p :: rest, k, v =>
    if p.1 = k then (k, v) :: rest else p :: dictInsert rest k v

/-- The `line_to_number` build loop of `parse_lines`: for each 1-based input
line whose stripped text is non-blank, map the stripped text to the index
(later lines overwrite earlier ones). -/
def buildLineDict : List (String × ℤ) → ℤ → List String → List (String × ℤ)
  | d, _, [] => d
  | d, i, l :: rest =>
    if pyStripS l = "" then buildLineDict d (i + 1) rest
    else buildLineDict (dictInsert d (pyStripS l) i) (i + 1) rest

/-- The `ParsedLogLine` constructor call inside `parse_lines`. -/
def mkParsedLogLine (isoOf : ℤ → String) (ln : ℤ) (r : LogRecord) :
    ParsedLogLine :=
  { line_number := ln,
    timestamp := some (isoOf r.timestamp),
    service := if r.service = "unknown" then none else some r.service,
    level := if r.level = "UNKNOWN" then none else some r.level,
    message := r.message,
    raw_line := r.raw }

/-- The record loop of `parse_lines`: look the stripped raw line up in the
dict (default 0), fall back to `len(parsed) + 1` — which is the record's
1-based position `n`, since every iteration appends. -/
def parseLinesGo (d : List (String × ℤ)) (isoOf : ℤ → String) :
    ℤ → List LogRecord → List ParsedLogLine
  | _, [] => []
  | n, r :: rest =>
    mkParsedLogLine isoOf
      (if dictGetD d (pyStripS r.raw) 0 = 0 then n
       else dictGetD d (pyStripS r.raw) 0) r ::
      parseLinesGo d isoOf (n + 1) rest

/-- `pipeline_interfaces.parse_lines`. -/
def parse_lines (extract : String → LogRecord) (isoOf : ℤ → String)
    (lines : List String) : List ParsedLogLine :=
  parseLinesGo (buildLineDict [] 1 lines) isoOf 1
    (parse_logs_from_text extract (pyJoin "\x0a" lines))

/-- Spec-side description of C10: the 1-based index of the *last* line of
`lines` whose stripped text equals `key` (running maximum over the scan),
or the seed `best` when none matches. -/
def lastStripIdx : ℤ → ℤ → List String → String → ℤ
  | best, _, [], _ => best
  | best, i, l :: rest, key =>
    lastStripIdx (if pyStripS l = key then i else best) (i + 1) rest key

/-- Spec-side description of C10's line numbers: last matching input index,
falling back to the record's 1-based position. -/
def specLineNumbersGo (lines : List String) : ℤ → List LogRecord → List ℤ
  | _, [] => []
  | n, r :: rest =>
    (if lastStripIdx 0 1 lines (pyStripS r.raw) = 0 then n
     else lastStripIdx 0 1 lines (pyStripS r.raw)) ::
      specLineNumbersGo lines (n + 1) rest

theorem dictGetD_insert (d : List (String × ℤ)) (k : String) (v : ℤ)
    (key : String) (v0 : ℤ) :
    dictGetD (dictInsert d k v) key v0 =
      if key = k then v else dictGetD d key v0 := by
  induction d with
  | nil =>
    simp only [dictInsert, dictGetD]
    by_cases h : key = k
    · rw [if_pos h, if_pos h.symm]
    · rw [if_neg h, if_neg (fun hh => h hh.symm)]
  | cons p rest ih =>
    simp only [dictInsert]
    by_cases hp : p.1 = k
    · rw [if_pos hp]
      simp only [dictGetD]
      by_cases h : key = k
      · rw [if_pos h, if_pos h.symm]
      · rw [if_neg h, if_neg (fun hh => h hh.symm),
          if_neg (fun hh => h (hp ▸ hh).symm)]
    · rw [if_neg hp]
      simp only [dictGetD]
      by_cases hq : p.1 = key
      · rw [if_pos hq, if_pos hq,
          if_neg (fun hh : key = k => hp (hq.trans hh))]
      · rw [if_neg hq, if_neg hq, ih]

theorem dictGetD_buildLineDict (key : String) (hk : ¬ key = "")
    (ls : List String) :
    ∀ (d : List (String × ℤ)) (i : ℤ),
      dictGetD (buildLineDict d i ls) key 0 =
        lastStripIdx (dictGetD d key 0) i ls key := by
  induction ls with
  | nil => intro d i; rfl
  | cons l rest ih =>
    intro d i
    simp only [buildLineDict, lastStripIdx]
    by_cases hs : pyStripS l = ""
    · rw [if_pos hs, if_neg (fun h : pyStripS l = key => hk (h ▸ hs)), ih]
    · rw [if_neg hs, ih]
      have harg : dictGetD (dictInsert d (pyStripS l) i) key 0 =
          if pyStripS l = key then i else dictGetD d key 0 := by
        rw [dictGetD_insert]
        by_cases he : pyStripS l = key
        · rw [if_pos he.symm, if_pos he]
        · rw [if_neg (fun hh => he hh.symm), if_neg he]
      rw [harg]

theorem parseLogsGo_raw_nonblank (extract : String → LogRecord)
    (hraw : ∀ l, (extract l).raw = l) (ls : List String) :
    ∀ r ∈ parseLogsGo extract ls, ¬ pyStripS r.raw = "" := by
  induction ls with
  | nil => intro r hr; cases hr
  | cons l rest ih =>
    intro r hr
    simp only [parseLogsGo] at hr
    by_cases hs : pyStripS l = ""
    · rw [if_pos hs] at hr
      exact ih r hr
    · rw [if_neg hs] at hr
      rcases List.mem_cons.mp hr with hr | hr
      · rw [hr, hraw]; exact hs
      · exact ih r hr

theorem parseLinesGo_spec (lines : List String) (isoOf : ℤ → String)
    (rs : List LogRecord) :
    ∀ n : ℤ, (∀ r ∈ rs, ¬ pyStripS r.raw = "") →
      (parseLinesGo (buildLineDict [] 1 lines) isoOf n rs).map
          ParsedLogLine.line_number =
        specLineNumbersGo lines n rs := by
  induction rs with
  | nil => intro n _; rfl
  | cons r rest ih =>
    intro n h
    have hkey : ¬ pyStripS r.raw = "" := h r (List.mem_cons_self r rest)
    have hd := dictGetD_buildLineDict (pyStripS r.raw) hkey lines [] 1
    simp only [parseLinesGo, specLineNumbersGo, List.map, mkParsedLogLine]
    rw [hd]
    simp only [dictGetD]
    exact congrArg₂ List.cons rfl
      (ih (n + 1) (fun q hq => h q (List.mem_cons_of_mem r hq)))

/-- A concrete extractor mirroring the fallback branch of
`_extract_from_text` on a line with no level token: `service = "unknown"`,
`level = "UNKNOWN"`, `message = raw.strip()`; the external wall-clock
timestamp is fixed at 0. -/
def c10Extract (l : String) : LogRecord :=
  ⟨0, "unknown", "UNKNOWN", pyStripS l, l⟩

def c10Iso : ℤ → String := fun _ => "1970-01-01T00:00:00+00:00"

/-- C10: in `parse_lines`, each record's `line_number` is the 1-based index
of the *last* input line whose stripped text equals the record's stripped
raw line, falling back to the record's 1-based position when no line
matches; consequently two identical non-blank input lines yield two records
carrying the *same* line number (both 2 for `["boom boom", "boom boom"]`),
so evidence line numbers need not identify distinct source lines. -/
theorem c10_parse_lines_line_numbers (extract : String → LogRecord)
    (isoOf : ℤ → String) (lines : List String)
    (hraw : ∀ l, (extract l).raw = l) :
    (parse_lines extract isoOf lines).map ParsedLogLine.line_number =
      specLineNumbersGo lines 1
        (parse_logs_from_text extract (pyJoin "\x0a" lines)) ∧
    (parse_lines c10Extract c10Iso ["boom boom", "boom boom"]).map
        ParsedLogLine.line_number = [2, 2] := by
  constructor
  · exact parseLinesGo_spec lines isoOf
      (parse_logs_from_text extract (pyJoin "\x0a" lines)) 1
      (parseLogsGo_raw_nonblank extract hraw (pySplitlines (pyJoin "\x0a" lines)))
  · decide

/-- C10 witness: at the concrete extractor and the duplicated input line,
the characterization holds and the line numbers are `[2, 2]`. -/
theorem c10_parse_lines_line_numbers_witness :
    (parse_lines c10Extract c10Iso ["boom boom", "boom boom"]).map
        ParsedLogLine.line_number =
      specLineNumbersGo ["boom boom", "boom boom"] 1
        (parse_logs_from_text c10Extract
          (pyJoin "\x0a" ["boom boom", "boom boom"])) ∧
    (parse_lines c10Extract c10Iso ["boom boom", "boom boom"]).map
        ParsedLogLine.line_number = [2, 2] :=
  c10_parse_lines_line_numbers c10Extract c10Iso ["boom boom", "boom boom"]
    (fun _ => rfl)

end SignalTrace
